import Mathlib

/-!
aws-ec2-ssh: a shallow embedding of the ssh command (the subcommand of internal/cli, its copy
in internal/cli/ssh and the legacy command of main.go), of the ssh-proxy subcommand and of the
processes around them.

Go strings are modelled as Lean `String`s (sequences of Unicode scalar values).  Every
byte-level operation the program performs (`strings.Contains s "@"`, `strings.SplitN s "@" 2`,
`strings.HasPrefix s "~/"`, `path[2:]` after that prefix, the ASCII-only regular expression) acts
on ASCII bytes only, and UTF-8 is self-synchronising, so the character-level definitions below
agree with the byte-level ones on every valid UTF-8 string.

The outside world (home directory, file system, cloud provider, the `ssh` child process) is an
explicit parameter `World`; `log.Fatalf` (which ends the process) is an explicit result.
-/

namespace AwsEc2Ssh

/-! ## Go standard library -/

/-- Go `unicode.IsSpace`: the Latin-1 spaces `\t`, `\n`, `\v`, `\f`, `\r`, space, U+0085 and
U+00A0, and beyond Latin-1 the code points with the Unicode property `White_Space`. -/
def unicode.IsSpace (c : Char) : Bool :=
  c = '\t' || c = '\n' || c.val = 0x0B || c.val = 0x0C || c = '\r' || c = ' ' ||
  c.val = 0x85 || c.val = 0xA0 || c.val = 0x1680 ||
  (0x2000 ≤ c.val && c.val ≤ 0x200A) ||
  c.val = 0x2028 || c.val = 0x2029 || c.val = 0x202F || c.val = 0x205F || c.val = 0x3000

/-- Go `strings.TrimSpace`: the string without its leading and trailing white space. -/
def strings.TrimSpace (s : String) : String :=
  ⟨((s.data.dropWhile unicode.IsSpace).reverse.dropWhile unicode.IsSpace).reverse⟩

/-- Go `strings.Contains s sep`. -/
def strings.Contains (s sep : String) : Bool :=
  decide (sep.data <:+: s.data)

/-- Go `strings.HasPrefix s p`. -/
def strings.HasPrefix (s p : String) : Bool :=
  p.data.isPrefixOf s.data

/-- The text before the first occurrence of the character `sep` and the text after it (all of
`s` and nothing when `sep` does not occur). -/
def strings.cut (sep : Char) : List Char → List Char × List Char
  | [] => ([], [])
  | c :: rest =>
    if c = sep then ([], rest)
    else ((strings.cut sep rest).1.cons c, (strings.cut sep rest).2)

/-- Go `strings.SplitN s sep 2` for a one-character separator: `[s]` when `sep` does not occur
in `s`, otherwise the text before the first `sep` and the text after it. -/
def strings.SplitN2 (s : String) (sep : Char) : List String :=
  if s.data.contains sep then
    [⟨(strings.cut sep s.data).1⟩, ⟨(strings.cut sep s.data).2⟩]
  else [s]

/-- Go `strings.Repeat s count`. -/
def strings.Repeat (s : String) : Nat → String
  | 0 => ""
  | n + 1 => s ++ strings.Repeat s n

/-- Go `strings.Join elems sep`. -/
def strings.Join : List String → String → String
  | [], _ => ""
  | [a], _ => a
  | a :: b :: rest, sep => a ++ sep ++ strings.Join (b :: rest) sep

/-- Go `fmt.Sprint` of an `int`: its decimal representation. -/
def fmt.Sprint (n : Int) : String :=
  toString n

/-- Go `fmt` verb `%v` applied to a `[]string`: the elements separated by one space, in square
brackets. -/
def fmt.vStrings (xs : List String) : String :=
  "[" ++ strings.Join xs " " ++ "]"

/-- The step of the `..` case of `filepath.Clean` that removes the last element from the
buffer: `out.w--; for out.w > dotdot && !sep(out.index(out.w)) { out.w-- }`.  The buffer is
given reversed (last written byte first). -/
def filepath.backtrack (dotdot : Nat) : List Char → List Char
  | [] => []
  | c :: rest =>
    if dotdot < rest.length ∧ c ≠ '/' then filepath.backtrack dotdot rest else rest

/-- Where the main loop of `filepath.Clean` stands before an input byte: at the top of the
loop (`start`), inside the inner loop that copies a real path element (`copy`), or at the second
byte of a `..` element, which `r += 2` steps over (`skip`). -/
inductive CleanMode
  | start | copy | skip
  deriving DecidableEq

/-- The variables of `filepath.Clean`: the output written so far (`out.w` is its length) and
the index `dotdot` where `..` must stop. -/
structure CleanState where
  mode : CleanMode
  buf : List Char
  dotdot : Nat
  deriving DecidableEq

/-- The effect of the input byte `c`, followed in the input by `rest`, on the variables of
`filepath.Clean`. -/
def filepath.cleanStep (rooted : Bool) (s : CleanState) (c : Char) (rest : List Char) :
    CleanState :=
  match s.mode with
  | .skip => { s with mode := .start }
  | .copy =>
    if c = '/' then { s with mode := .start }
    else { s with buf := s.buf ++ [c] }
  | .start =>
    if c = '/' then
      -- empty path element
      s
    else if c = '.' ∧ (rest.head? = none ∨ rest.head? = some '/') then
      -- . element
      s
    else if c = '.' ∧ rest.head? = some '.' ∧
        ((rest.drop 1).head? = none ∨ (rest.drop 1).head? = some '/') then
      -- .. element: remove to last separator
      if s.dotdot < s.buf.length then
        -- can backtrack
        { s with mode := .skip, buf := (filepath.backtrack s.dotdot s.buf.reverse).reverse }
      else if ¬ rooted then
        -- cannot backtrack, but not rooted, so append .. element
        let buf := (if 0 < s.buf.length then s.buf ++ ['/'] else s.buf) ++ ['.', '.']
        { mode := .skip, buf := buf, dotdot := buf.length }
      else { s with mode := .skip }
    else
      -- real path element: add slash if needed, then copy the element
      let buf :=
        if (rooted ∧ s.buf.length ≠ 1) ∨ (¬ rooted ∧ s.buf.length ≠ 0) then s.buf ++ ['/']
        else s.buf
      { s with mode := .copy, buf := buf ++ [c] }

/-- The main loop of Go `filepath.Clean` (Unix), one input byte at a time. -/
def filepath.cleanLoop (rooted : Bool) : List Char → CleanState → CleanState
  | [], s => s
  | c :: rest, s => filepath.cleanLoop rooted rest (filepath.cleanStep rooted s c rest)

/-- Go `filepath.Clean` on Unix (no volume names, separator `/`). -/
def filepath.Clean (path : String) : String :=
  if path = "" then "."
  else
    let rooted : Bool := path.data.head? = some '/'
    let out :=
      if rooted then (filepath.cleanLoop true path.data.tail ⟨.start, ['/'], 1⟩).buf
      else (filepath.cleanLoop false path.data ⟨.start, [], 0⟩).buf
    if out.length = 0 then "." else ⟨out⟩

/-- Go `filepath.Join` on Unix: the non-empty elements from the first non-empty one on, joined
by `/`, then cleaned; the empty string when every element is empty. -/
def filepath.Join : List String → String
  | [] => ""
  | e :: rest =>
    if e ≠ "" then filepath.Clean (strings.Join (e :: rest) "/") else filepath.Join rest

/-! ## The outside world -/

/-- The file types `os.FileMode` distinguishes (after following symbolic links, as `os.Stat`
does). -/
inductive FileMode
  | regular | dir | namedPipe | socket | device | charDevice | irregular
  deriving DecidableEq

/-- The part of `os.FileInfo` the program looks at. -/
structure FileInfo where
  mode : FileMode
  deriving DecidableEq

/-- Go `FileInfo.IsDir`. -/
def FileInfo.IsDir (fi : FileInfo) : Bool := fi.mode = FileMode.dir

/-- Go `FileMode.IsRegular`. -/
def FileInfo.IsRegular (fi : FileInfo) : Bool := fi.mode = FileMode.regular

/-- An EC2 instance of a provider response: `InstanceId` is a `*string`. -/
structure Instance where
  InstanceId : Option String
  deriving DecidableEq

/-- An EC2 reservation of a provider response. -/
structure Reservation where
  Instances : List Instance
  deriving DecidableEq

/-- The output of `ec2.DescribeInstances`. -/
structure DescribeInstancesOutput where
  Reservations : List Reservation
  deriving DecidableEq

/-- Everything outside the process that the ssh command consults. -/
structure World where
  /-- `os.UserHomeDir()`. -/
  UserHomeDir : Except String String
  /-- `os.Stat(path)`. -/
  Stat : String → Except String FileInfo
  /-- `config.LoadDefaultConfig` for a profile and a region: its error, if any. -/
  LoadDefaultConfig : String → String → Option String
  /-- `client.DescribeInstances` for a profile, a region and the value of the `tag:Name`
  filter (the `instance-state-name` filter is always `running`). -/
  DescribeInstances : String → String → String → Except String DescribeInstancesOutput
  /-- `exec.Command("ssh", args...).Run()`: its error, if any. -/
  Run : List String → Option String

/-- A computation that either ends the process through `log.Fatal`/`log.Fatalf` (exit status 1,
with the logged message) or returns. -/
inductive Proc (α : Type)
  | fatal (msg : String)
  | ret (a : α)
  deriving DecidableEq

/-- Go `aws.ToString`: the pointed-to string, or the empty string for a nil pointer. -/
def aws.ToString : Option String → String
  | none => ""
  | some s => s

/-! ## internal/sshutils -/

def defaultPrivateKeyFiles : List String :=
  [ "~/.ssh/id_rsa",
    "~/.ssh/id_ecdsa",
    "~/.ssh/id_ecdsa_sk",
    "~/.ssh/id_ed25519",
    "~/.ssh/id_ed25519_sk" ]

/-- The value `home` of `home, _ := os.UserHomeDir()`: the empty string on error. -/
def World.home (w : World) : String :=
  match w.UserHomeDir with
  | .ok h => h
  | .error _ => ""

/-- The function `ExpandTilde` of internal/sshutils. -/
def ExpandTilde (w : World) (path : String) : String :=
  if strings.HasPrefix path "~/" then
    filepath.Join [w.home, ⟨path.data.drop 2⟩]
  else path

/-- The loop of `FindDefaultSSHPrivateKey` over the remaining candidates. -/
def FindDefaultSSHPrivateKey.loop (w : World) : List String → String × Option String
  | [] => ("", some "unable to find default SSH private key")
  | k :: rest =>
    let path := ExpandTilde w k
    match w.Stat path with
    | .ok fi => if !fi.IsDir then (path, none) else FindDefaultSSHPrivateKey.loop w rest
    | .error _ => FindDefaultSSHPrivateKey.loop w rest

/-- The function `FindDefaultSSHPrivateKey` of internal/sshutils: the path and the error. -/
def FindDefaultSSHPrivateKey (w : World) : String × Option String :=
  FindDefaultSSHPrivateKey.loop w defaultPrivateKeyFiles

/-! ## internal/awsutils -/

/-- The function `LoadAwsDefaultConfig`: fatal when the configuration cannot be loaded. -/
def LoadAwsDefaultConfig (w : World) (profile region : String) : Proc Unit :=
  match w.LoadDefaultConfig profile region with
  | some err => .fatal err
  | none => .ret ()

/-- The nested loops of `ResolveNameTagToInstanceID` that collect the instance IDs. -/
def collectMatches (out : DescribeInstancesOutput) : List String :=
  out.Reservations.foldl
    (fun matched reservation =>
      reservation.Instances.foldl
        (fun matched inst => matched ++ [aws.ToString inst.InstanceId]) matched)
    []

/-- The decision of `ResolveNameTagToInstanceID` once the provider has answered. -/
def resolveMatches (name : String) (matched : List String) : String × Option String :=
  if matched.length = 0 then
    ("", some ("there are no running instances with Name tag: " ++ name))
  else if matched.length > 1 then
    ("", some ("there are multiple running instances with Name tag '" ++ name ++ "': " ++
      fmt.vStrings matched))
  else (matched.headD "", none)

/-- The function `ResolveNameTagToInstanceID` of internal/awsutils. -/
def ResolveNameTagToInstanceID (w : World) (name profile region : String) :
    Proc (String × Option String) :=
  match LoadAwsDefaultConfig w profile region with
  | .fatal msg => .fatal msg
  | .ret () =>
    match w.DescribeInstances profile region name with
    | .error err => .fatal ("Error describing instances: " ++ err)
    | .ok out => .ret (resolveMatches name (collectMatches out))

/-! ## internal/cli: the ssh subcommand -/

def defaultUser : String := "ec2-user"

/-- The positional arguments of the ssh subcommand. -/
structure SSHArgs where
  Instance : String
  deriving DecidableEq

/-- The flags and arguments of the ssh subcommand. -/
structure SSHCommand where
  Profile : String
  Region : String
  PublicKey : String
  Port : Int
  Verbose : List Bool
  Args : SSHArgs
  deriving DecidableEq

/-- The character class `[[:xdigit:]]`. -/
def isXDigit (c : Char) : Bool :=
  ('0' ≤ c && c ≤ '9') || ('A' ≤ c && c ≤ 'F') || ('a' ≤ c && c ≤ 'f')

/-- The part `i-[[:xdigit:]]{8,}$` of the instance ID pattern. -/
def instanceIDBody : List Char → Bool
  | a :: b :: hex => a = 'i' && b = '-' && decide (8 ≤ hex.length) && hex.all isXDigit
  | _ => false

/-- The regular expression `^m?i-[[:xdigit:]]{8,}$` applied to the whole string:
`instanceIDPattern.Match([]byte(s))`. -/
def instanceIDPattern (s : String) : Bool :=
  instanceIDBody s.data || (s.data.head? = some 'm' && instanceIDBody s.data.tail)

/-- The function `prepareArg` of internal/cli. -/
def prepareArg (arg profile : String) : String :=
  if profile = "" then ""
  else " --" ++ arg ++ " " ++ profile

/-- What a run of the ssh subcommand did, and how it ended. -/
structure Run where
  /-- The calls of `ResolveNameTagToInstanceID`, in order: name, profile, region. -/
  resolved : List (String × String × String)
  /-- The argument lists with which the ssh client was started, in order. -/
  launched : List (List String)
  /-- The end of `Execute`: `log.Fatalf`, or the error it returns. -/
  result : Proc (Option String)
  deriving DecidableEq

/-- Lines 31-40 of `Execute`: the key given with `--key`, or the first default key. -/
def SSHCommand.locateKey (c : SSHCommand) (w : World) : Proc String :=
  if c.PublicKey = "" then
    match FindDefaultSSHPrivateKey w with
    | (_, some _) =>
      .fatal ("SSH private key was not found in ~/.ssh " ++
        "(tried id_rsa, id_ecdsa, id_ecdsa_sk, id_ed25519, id_ed25519_sk)\n")
    | (publicKey, none) => .ret publicKey
  else .ret c.PublicKey

/-- Lines 42-57 of `Execute`: the user and the instance part of the positional argument. -/
def SSHCommand.splitTarget (c : SSHCommand) : String × String :=
  let user := defaultUser
  let instanceArg := c.Args.Instance
  let instanceId := instanceArg
  if strings.Contains instanceArg "@" then
    let parts := strings.SplitN2 instanceArg '@'
    (parts.getD 0 "", parts.getD 1 "")
  else (user, instanceId)

/-- Lines 78-85 of `Execute`: the proxy command. -/
def SSHCommand.proxyCmd (c : SSHCommand) (publicKeyPath user instanceId : String) : String :=
  strings.TrimSpace
    ("aws-ec2-ssh ssh-proxy --ssh-key " ++ publicKeyPath ++ " --username " ++ user ++
      " --instance-id " ++ instanceId ++ " " ++ prepareArg "profile" c.Profile ++ " " ++
      prepareArg "region" c.Region)

/-- Lines 89-100 of `Execute`: the arguments of the ssh client. -/
def SSHCommand.sshArgs (c : SSHCommand) (publicKey proxyCmd user instanceId : String) :
    List String :=
  let sshArgs := ["-i", publicKey, "-o", "ProxyCommand=sh -c '" ++ proxyCmd ++ "'", "-p",
    fmt.Sprint c.Port]
  let sshArgs :=
    if c.Verbose.length > 0 then sshArgs ++ ["-" ++ strings.Repeat "v" c.Verbose.length]
    else sshArgs
  sshArgs ++ [user ++ "@" ++ instanceId]

/-- Lines 73-113 of `Execute`: the check of the public key file and the start of the ssh
client, after the calls `calls` of the resolver. -/
def SSHCommand.connect (c : SSHCommand) (w : World) (calls : List (String × String × String))
    (publicKey user instanceId : String) : Run :=
  let publicKeyPath := publicKey ++ ".pub"
  match w.Stat publicKeyPath with
  | .error _ =>
    ⟨calls, [], .fatal ("Could not find matching public key for " ++ publicKey ++
      " (expected " ++ publicKeyPath ++ ")\n")⟩
  | .ok _ =>
    let proxyCmd := c.proxyCmd publicKeyPath user instanceId
    let sshArgs := c.sshArgs publicKey proxyCmd user instanceId
    match w.Run sshArgs with
    | some err => ⟨calls, [sshArgs], .fatal ("ssh failed: " ++ err)⟩
    | none => ⟨calls, [sshArgs], .ret none⟩

/-- The method `SSHCommand.Execute` of internal/cli. -/
def SSHCommand.Execute (c : SSHCommand) (w : World) : Run :=
  match c.locateKey w with
  | .fatal msg => ⟨[], [], .fatal msg⟩
  | .ret publicKey =>
    let publicKey := ExpandTilde w publicKey
    let user := c.splitTarget.1
    let instanceId := c.splitTarget.2
    if !instanceIDPattern instanceId then
      let call := (instanceId, c.Profile, c.Region)
      match ResolveNameTagToInstanceID w instanceId c.Profile c.Region with
      | .fatal msg => ⟨[call], [], .fatal msg⟩
      | .ret (_, some err) => ⟨[call], [], .fatal ("Error: " ++ err ++ "\n")⟩
      | .ret (resolved, none) => c.connect w [call] publicKey user resolved
    else c.connect w [] publicKey user instanceId

/-! ## main.go: the legacy single-command variant -/

/-- The options of the legacy command; its positional arguments have the shape of `SSHArgs`. -/
structure Options where
  Profile : String
  Region : String
  PublicKey : String
  Port : Int
  Verbose : List Bool
  Debug : Bool
  Args : SSHArgs
  deriving DecidableEq

def main.defaultUser : String := "ec2-user"

def main.defaultPrivateKeyFiles : List String :=
  [ "~/.ssh/id_rsa",
    "~/.ssh/id_ecdsa",
    "~/.ssh/id_ecdsa_sk",
    "~/.ssh/id_ed25519",
    "~/.ssh/id_ed25519_sk" ]

/-- The function `expandTilde` of main.go. -/
def expandTilde (w : World) (path : String) : String :=
  if strings.HasPrefix path "~/" then
    filepath.Join [w.home, ⟨path.data.drop 2⟩]
  else path

/-- The loop of `findDefaultSSHPrivateKey` over the remaining candidates. -/
def findDefaultSSHPrivateKey.loop (w : World) : List String → String × Option String
  | [] => ("", some "no default SSH private key found")
  | k :: rest =>
    let path := expandTilde w k
    match w.Stat path with
    | .ok fi => if !fi.IsDir then (path, none) else findDefaultSSHPrivateKey.loop w rest
    | .error _ => findDefaultSSHPrivateKey.loop w rest

/-- The function `findDefaultSSHPrivateKey` of main.go: the path and the error. -/
def findDefaultSSHPrivateKey (w : World) : String × Option String :=
  findDefaultSSHPrivateKey.loop w main.defaultPrivateKeyFiles

/-- The function `resolveNameTagToInstanceID` of main.go.  Its two nested loops over the
reservations and their instances are those of `collectMatches`.  A configuration that cannot be
loaded is returned as an error here, not logged as fatal. -/
def resolveNameTagToInstanceID (w : World) (name profile region : String) :
    Proc (String × Option String) :=
  match w.LoadDefaultConfig profile region with
  | some err => .ret ("", some err)
  | none =>
    match w.DescribeInstances profile region name with
    | .error err => .fatal ("Error describing instances: " ++ err)
    | .ok out =>
      let matched := collectMatches out
      if matched.length = 0 then
        .ret ("", some ("there are no running instance with Name tag: " ++ name))
      else if matched.length > 1 then
        .ret ("", some ("there are multiple running instances with Name tag '" ++ name ++
          "': " ++ fmt.vStrings matched))
      else .ret (matched.headD "", none)

/-- The function `profileArg` of main.go. -/
def profileArg (profile : String) : String :=
  if profile = "" then ""
  else " --profile " ++ profile

/-- The function `regionArg` of main.go. -/
def regionArg (region : String) : String :=
  if region = "" then ""
  else " --region " ++ region

/-- Lines 64-73 of `main`: the key given with `--key`, or the first default key. -/
def main.locateKey (opts : Options) (w : World) : Proc String :=
  if opts.PublicKey = "" then
    match findDefaultSSHPrivateKey w with
    | (_, some _) =>
      .fatal ("SSH private key was not found in ~/.ssh " ++
        "(tried id_rsa, id_ecdsa, id_ecdsa_sk, id_ed25519, id_ed25519_sk)\n")
    | (publicKey, none) => .ret publicKey
  else .ret opts.PublicKey

/-- Lines 75-89 of `main`: the user and the instance part of the positional argument. -/
def main.splitTarget (opts : Options) : String × String :=
  let user := main.defaultUser
  let instanceArg := opts.Args.Instance
  if strings.Contains instanceArg "@" then
    let parts := strings.SplitN2 instanceArg '@'
    (parts.getD 0 "", parts.getD 1 "")
  else (user, instanceArg)

/-- Lines 110-117 of `main`: the proxy command (`%%` in the format is a literal `%`). -/
def main.proxyCmd (opts : Options) (publicKeyPath : String) : String :=
  "aws ec2-instance-connect send-ssh-public-key --instance-id %h --instance-os-user %r " ++
    "--ssh-public-key file://" ++ publicKeyPath ++ profileArg opts.Profile ++
    regionArg opts.Region ++
    " > /dev/null && aws ssm start-session --target %h --document-name AWS-StartSSHSession " ++
    "--parameters portNumber=%p" ++ profileArg opts.Profile ++ regionArg opts.Region

/-- Lines 120-131 of `main`: the arguments of the ssh client. -/
def main.sshArgs (opts : Options) (publicKey proxyCmd user instanceArg : String) :
    List String :=
  let sshArgs := ["-i", publicKey, "-o", "ProxyCommand=sh -c '" ++ proxyCmd ++ "'", "-p",
    fmt.Sprint opts.Port]
  let sshArgs :=
    if opts.Verbose.length > 0 then sshArgs ++ ["-" ++ strings.Repeat "v" opts.Verbose.length]
    else sshArgs
  sshArgs ++ [user ++ "@" ++ instanceArg]

/-- Lines 105-142 of `main`: the check of the public key file and the start of the ssh client,
after the calls `calls` of the resolver. -/
def main.connect (opts : Options) (w : World) (calls : List (String × String × String))
    (publicKey user instanceArg : String) : Run :=
  let publicKeyPath := publicKey ++ ".pub"
  match w.Stat publicKeyPath with
  | .error _ =>
    ⟨calls, [], .fatal ("Could not find matching public key for " ++ publicKey ++
      " (expected " ++ publicKeyPath ++ ")\n")⟩
  | .ok _ =>
    let proxyCmd := main.proxyCmd opts publicKeyPath
    let sshArgs := main.sshArgs opts publicKey proxyCmd user instanceArg
    match w.Run sshArgs with
    | some err => ⟨calls, [sshArgs], .fatal ("ssh failed: " ++ err)⟩
    | none => ⟨calls, [sshArgs], .ret none⟩

/-- Lines 57-142 of `main`: what the legacy command does once its options are parsed.  The
result `.ret none` stands for the plain return of `main`. -/
def main.body (opts : Options) (w : World) : Run :=
  match main.locateKey opts w with
  | .fatal msg => ⟨[], [], .fatal msg⟩
  | .ret publicKey =>
    let user := (main.splitTarget opts).1
    let instanceArg := (main.splitTarget opts).2
    let publicKey := expandTilde w publicKey
    if !instanceIDPattern instanceArg then
      let call := (instanceArg, opts.Profile, opts.Region)
      match resolveNameTagToInstanceID w instanceArg opts.Profile opts.Region with
      | .fatal msg => ⟨[call], [], .fatal msg⟩
      | .ret (_, some err) => ⟨[call], [], .fatal ("Error: " ++ err ++ "\n")⟩
      | .ret (resolved, none) => main.connect opts w [call] publicKey user resolved
    else main.connect opts w [] publicKey user instanceArg

/-! ## internal/cli/ssh: the ssh subcommand of package ssh -/

/-- Lines 78-85 of `Command.Execute` of internal/cli/ssh.  The struct `Command` of that package
has the fields of `SSHCommand`, and its `Execute` is the one of `SSHCommand` line by line except
for the name of the tool in the proxy command. -/
def ssh.Command.proxyCmd (c : SSHCommand) (publicKeyPath user instanceId : String) : String :=
  strings.TrimSpace
    ("ec2-ssh ssh-proxy --ssh-key " ++ publicKeyPath ++ " --username " ++ user ++
      " --instance-id " ++ instanceId ++ " " ++ prepareArg "profile" c.Profile ++ " " ++
      prepareArg "region" c.Region)

/-- Lines 73-113 of `Command.Execute` of internal/cli/ssh. -/
def ssh.Command.connect (c : SSHCommand) (w : World) (calls : List (String × String × String))
    (publicKey user instanceId : String) : Run :=
  let publicKeyPath := publicKey ++ ".pub"
  match w.Stat publicKeyPath with
  | .error _ =>
    ⟨calls, [], .fatal ("Could not find matching public key for " ++ publicKey ++
      " (expected " ++ publicKeyPath ++ ")\n")⟩
  | .ok _ =>
    let proxyCmd := ssh.Command.proxyCmd c publicKeyPath user instanceId
    let sshArgs := c.sshArgs publicKey proxyCmd user instanceId
    match w.Run sshArgs with
    | some err => ⟨calls, [sshArgs], .fatal ("ssh failed: " ++ err)⟩
    | none => ⟨calls, [sshArgs], .ret none⟩

/-- The method `Command.Execute` of internal/cli/ssh. -/
def ssh.Command.Execute (c : SSHCommand) (w : World) : Run :=
  match c.locateKey w with
  | .fatal msg => ⟨[], [], .fatal msg⟩
  | .ret publicKey =>
    let publicKey := ExpandTilde w publicKey
    let user := c.splitTarget.1
    let instanceId := c.splitTarget.2
    if !instanceIDPattern instanceId then
      let call := (instanceId, c.Profile, c.Region)
      match ResolveNameTagToInstanceID w instanceId c.Profile c.Region with
      | .fatal msg => ⟨[call], [], .fatal msg⟩
      | .ret (_, some err) => ⟨[call], [], .fatal ("Error: " ++ err ++ "\n")⟩
      | .ret (resolved, none) => ssh.Command.connect c w [call] publicKey user resolved
    else ssh.Command.connect c w [] publicKey user instanceId

/-! ## The ssh-proxy subcommand -/

/-- The flags of the ssh-proxy subcommand (`SSHProxyCommand` of internal/cli, `Command` of
internal/cli/ssh_proxy).  `Port` carries its go-flags default, 22: the value of the field when
the command line has no port option. -/
structure SSHProxyCommand where
  Profile : String
  Region : String
  Username : String
  InstanceId : String
  Port : Int := 22
  PublicKey : String
  deriving DecidableEq

/-- Everything outside the process that the ssh-proxy subcommand consults: the world of the
ssh subcommand and, besides, the contents of files, EC2 Instance Connect and Session Manager. -/
structure ProxyWorld extends World where
  /-- `os.ReadFile(path)`. -/
  ReadFile : String → Except String String
  /-- `ec2ic.SendSSHPublicKey` under a profile and a region, for an instance ID, an OS user and
  a public key: its error, if any. -/
  SendSSHPublicKey : String → String → String → String → String → Option String
  /-- `ssmclient.SSHSession` under a profile and a region, for a target and a remote port: its
  error, if any. -/
  SSHSession : String → String → String → Int → Option String

/-- What a run of the ssh-proxy subcommand did, and how it ended. -/
structure ProxyRun where
  /-- The public keys sent: instance ID, OS user, key. -/
  sent : List (String × String × String)
  /-- The tunnels opened: target, remote port. -/
  sessions : List (String × Int)
  /-- The end of `Execute`: `log.Fatal`, or its return (`none` for a plain return or a nil
  error). -/
  result : Proc (Option String)
  deriving DecidableEq

/-- The function `ReadPublicKey` of internal/sshutils. -/
def ReadPublicKey (pw : ProxyWorld) (pubKeyPath : String) : String × Option String :=
  let read := fun (path : String) =>
    match pw.ReadFile path with
    | .error err => ("", some err)
    | .ok data => (strings.TrimSpace data, none)
  if strings.HasPrefix pubKeyPath "~/" then
    match pw.UserHomeDir with
    | .error err => ("", some err)
    | .ok home => read (filepath.Join [home, ⟨pubKeyPath.data.drop 2⟩])
  else read pubKeyPath

/-- The method `SSHProxyCommand.Execute` of internal/cli. -/
def SSHProxyCommand.Execute (c : SSHProxyCommand) (pw : ProxyWorld) : ProxyRun :=
  match LoadAwsDefaultConfig pw.toWorld c.Profile c.Region with
  | .fatal msg => ⟨[], [], .fatal msg⟩
  | .ret () =>
    match ReadPublicKey pw c.PublicKey with
    | (_, some err) => ⟨[], [], .fatal err⟩
    | (publicKey, none) =>
      let send := (c.InstanceId, c.Username, publicKey)
      match pw.SendSSHPublicKey c.Profile c.Region c.InstanceId c.Username publicKey with
      | some err => ⟨[send], [], .fatal err⟩
      | none =>
        let session := (c.InstanceId, c.Port)
        match pw.SSHSession c.Profile c.Region c.InstanceId c.Port with
        | some err => ⟨[send], [session], .fatal err⟩
        | none => ⟨[send], [session], .ret none⟩

/-- The method `Command.Execute` of internal/cli/ssh_proxy: the same steps, and a nil error at
the end. -/
def ssh_proxy.Command.Execute (c : SSHProxyCommand) (pw : ProxyWorld) : ProxyRun :=
  match LoadAwsDefaultConfig pw.toWorld c.Profile c.Region with
  | .fatal msg => ⟨[], [], .fatal msg⟩
  | .ret () =>
    match ReadPublicKey pw c.PublicKey with
    | (_, some err) => ⟨[], [], .fatal err⟩
    | (publicKey, none) =>
      let send := (c.InstanceId, c.Username, publicKey)
      match pw.SendSSHPublicKey c.Profile c.Region c.InstanceId c.Username publicKey with
      | some err => ⟨[send], [], .fatal err⟩
      | none =>
        let session := (c.InstanceId, c.Port)
        match pw.SSHSession c.Profile c.Region c.InstanceId c.Port with
        | some err => ⟨[send], [session], .fatal err⟩
        | none => ⟨[send], [session], .ret none⟩

/-! ## The processes: parsing, dispatch and exit status -/

/-- How `parser.Parse()` of go-flags stands when the command line has been read: with an error
of type `ErrHelp`, with any other error, or with the options (and the chosen subcommand) filled
in. -/
inductive Parsed (α : Type)
  | help
  | failure (msg : String)
  | ok (a : α)
  deriving DecidableEq

/-- A value that implements the interface `flags.Commander`, that is, has a method
`Execute(args []string) error`: here, how that method ends. -/
structure flags.Commander where
  Execute : Proc (Option String)

/-- How the command handler of a parser ends: by `log.Fatal` (exit status 1), by a run-time
panic (exit status 2), or by returning an error or nil to `Parse`. -/
inductive Handled
  | fatal (msg : String)
  | panicked (msg : String)
  | returned (err : Option String)
  deriving DecidableEq

/-- The exit status of a process whose command handler ended as `h`: `log.Fatal` exits with 1,
an unrecovered panic with 2; an error returned to `Parse` (none of them is of type `ErrHelp`) is
returned by `Parse` and leads to `os.Exit(1)`; otherwise `Execute` and then `main` return, and
the status is 0. -/
def Handled.exitStatus : Handled → Nat
  | .fatal _ => 1
  | .panicked _ => 2
  | .returned (some _) => 1
  | .returned none => 0

/-- The process of the legacy command: `main` of main.go.  A parse error ends it with status 0
(help) or 1; otherwise `log.Fatalf` ends it with status 1, and the return of `main` with 0. -/
def main (w : World) (parsed : Parsed Options) : Nat :=
  match parsed with
  | .help => 0
  | .failure _ => 1
  | .ok opts =>
    match (main.body opts w).result with
    | .fatal _ => 1
    | .ret _ => 0

/-- The subcommands of `Root` of internal/cli. -/
inductive cli.Command
  | SSH (c : SSHCommand)
  | SSHProxy (c : SSHProxyCommand)
  deriving DecidableEq

/-- The type assertion `s.command.data.(Commander)` of go-flags for the subcommands of internal/cli:
`(*SSHCommand).Execute(args []string) error` has the signature the interface asks for; the method
`(*SSHProxyCommand).Execute(args []string)` has no result, so `*SSHProxyCommand` is not a
`Commander`. -/
def cli.Command.asCommander (w : World) : cli.Command → Option flags.Commander
  | .SSH c => some ⟨(c.Execute w).result⟩
  | .SSHProxy _ => none

/-- The `CommandHandler` that `Execute` of internal/cli installs: it ends with
`return command.Execute(args)`.  go-flags hands it the chosen command when that is a `Commander`
and nil otherwise ("The command passed into CommandHandler may be nil in case there is no
command to be executed when parsing has finished"); the method call on the nil interface
panics. -/
def cli.CommandHandler (command : Option flags.Commander) : Handled :=
  match command with
  | none => .panicked "runtime error: invalid memory address or nil pointer dereference"
  | some cmd =>
    match cmd.Execute with
    | .fatal msg => .fatal msg
    | .ret err => .returned err

/-- The process of the subcommand variant: `Execute` of internal/cli (root.go). -/
def cli.Execute (w : World) (parsed : Parsed cli.Command) : Nat :=
  match parsed with
  | .help => 0
  | .failure _ => 1
  | .ok command => (cli.CommandHandler (command.asCommander w)).exitStatus

/-- The subcommands of `Root` of internal/cli/root: `ssh.Command` and `ssh_proxy.Command`. -/
inductive root.Command
  | SSH (c : SSHCommand)
  | SSHProxy (c : SSHProxyCommand)
  deriving DecidableEq

/-- The type assertion `s.command.data.(Commander)` for the subcommands of internal/cli/root:
both `Execute` methods return an error. -/
def root.Command.asCommander (pw : ProxyWorld) : root.Command → Option flags.Commander
  | .SSH c => some ⟨(ssh.Command.Execute c pw.toWorld).result⟩
  | .SSHProxy c => some ⟨(ssh_proxy.Command.Execute c pw).result⟩

/-- The `CommandHandler` that `Execute` of internal/cli/root installs. -/
def root.CommandHandler (command : Option flags.Commander) : Handled :=
  match command with
  | none => .panicked "runtime error: invalid memory address or nil pointer dereference"
  | some cmd =>
    match cmd.Execute with
    | .fatal msg => .fatal msg
    | .ret err => .returned err

/-- The process of the subcommand variant of package root: `Execute` of internal/cli/root. -/
def root.Execute (pw : ProxyWorld) (parsed : Parsed root.Command) : Nat :=
  match parsed with
  | .help => 0
  | .failure _ => 1
  | .ok command => (root.CommandHandler (command.asCommander pw)).exitStatus

/-! ## Vocabulary of the statements -/

/-- The strings `xs` occur in the text `s` one after the other, without overlap, in the order
of the list. -/
def OccursInOrder : List String → List Char → Prop
  | [], _ => True
  | x :: xs, s => ∃ a b, s = a ++ x.data ++ b ∧ OccursInOrder xs b

/-- The instance IDs of a provider response, in the order the response lists them. -/
def responseIDs (out : DescribeInstancesOutput) : List String :=
  out.Reservations.flatMap (fun r => r.Instances.map (fun i => aws.ToString i.InstanceId))

/-- The number of instances of a provider response, summed over all reservations. -/
def responseCount (out : DescribeInstancesOutput) : Nat :=
  (out.Reservations.map (fun r => r.Instances.length)).sum

/-- The positional argument `arg` names the user `user` and the instance part `inst`: either
`arg` has no `@`, the user is the default one and the instance part is all of `arg`, or `arg` is
`user`, a first `@`, and `inst`. -/
def IsTarget (arg user inst : String) : Prop :=
  ('@' ∉ arg.data ∧ user = "ec2-user" ∧ inst = arg) ∨
  ('@' ∉ user.data ∧ arg = user ++ "@" ++ inst)

/-- A world for the examples: home directory `/home/alice`, the listed files and nothing else
on disk, a provider that answers every query with `out`, an ssh client that exits cleanly. -/
def sampleWorld (files : List (String × FileMode)) (out : DescribeInstancesOutput) : World where
  UserHomeDir := .ok "/home/alice"
  Stat := fun path =>
    match files.lookup path with
    | some mode => .ok ⟨mode⟩
    | none => .error "no such file or directory"
  LoadDefaultConfig := fun _ _ => none
  DescribeInstances := fun _ _ _ => .ok out
  Run := fun _ => none

/-- The path exists on disk. -/
def FileExists (w : World) (path : String) : Bool :=
  match w.Stat path with
  | .ok _ => true
  | .error _ => false

/-- The path exists on disk and is not a directory. -/
def ExistsNotDir (w : World) (path : String) : Bool :=
  match w.Stat path with
  | .ok fi => !fi.IsDir
  | .error _ => false

/-- The path exists on disk and is a regular file. -/
def ExistsRegular (w : World) (path : String) : Bool :=
  match w.Stat path with
  | .ok fi => fi.IsRegular
  | .error _ => false

/-- The five default key files under the `.ssh` directory of the home directory `home`, in the
order in which they are tried. -/
def defaultKeyPaths (home : String) : List String :=
  [ filepath.Join [home, ".ssh/id_rsa"],
    filepath.Join [home, ".ssh/id_ecdsa"],
    filepath.Join [home, ".ssh/id_ecdsa_sk"],
    filepath.Join [home, ".ssh/id_ed25519"],
    filepath.Join [home, ".ssh/id_ed25519_sk"] ]

/-- The string ends in a white-space character. -/
def EndsInSpace (s : String) : Bool :=
  match s.data.getLast? with
  | some c => unicode.IsSpace c
  | none => false

/-- The proxy command without any profile or region flag. -/
def proxyBase (publicKeyPath user instanceId : String) : String :=
  "aws-ec2-ssh ssh-proxy --ssh-key " ++ publicKeyPath ++ " --username " ++ user ++
    " --instance-id " ++ instanceId

/-- A path element that `filepath.Clean` keeps as it is: not empty, without a slash, and neither
`.` nor `..`. -/
def PlainElem (e : List Char) : Bool :=
  decide (e ≠ [] ∧ '/' ∉ e ∧ e ≠ ['.'] ∧ e ≠ ['.', '.'])

/-- The path elements joined by single slashes. -/
def joinElems : List (List Char) → List Char
  | [] => []
  | [e] => e
  | e :: f :: rest => e ++ '/' :: joinElems (f :: rest)

/-- A relative path in clean form: one or more plain elements separated by single slashes. -/
def CleanRelative (p : String) : Prop :=
  ∃ elems : List (List Char),
    elems ≠ [] ∧ (∀ e ∈ elems, PlainElem e = true) ∧ p.data = joinElems elems

/-- An absolute path in clean form, other than the root: a slash followed by one or more plain
elements separated by single slashes. -/
def CleanAbsolute (p : String) : Prop :=
  ∃ elems : List (List Char),
    elems ≠ [] ∧ (∀ e ∈ elems, PlainElem e = true) ∧ p.data = '/' :: joinElems elems

/-- The flags and the positional argument of the legacy command, as flags and positional
argument of the ssh subcommand. -/
def Options.flags (opts : Options) : SSHCommand :=
  ⟨opts.Profile, opts.Region, opts.PublicKey, opts.Port, opts.Verbose, opts.Args⟩

/-- The computation ended the process through `log.Fatal`. -/
def Proc.failed {α : Type} : Proc α → Bool
  | .fatal _ => true
  | .ret _ => false

/-- The instance ID a resolver produced, when it returned one without an error. -/
def resolvedID : Proc (String × Option String) → Option String
  | .ret (id, none) => some id
  | _ => none

/-- Two ssh argument lists are equal in every position except the text of the ProxyCommand
option value: they have the same length, the same argument at every index other than 3, and
at index 3 each has "ProxyCommand=sh -c '", a proxy command and a closing quote. -/
def SameExceptProxyCommand (a b : List String) : Prop :=
  a.length = b.length ∧
  (∀ i : Nat, i ≠ 3 → a[i]? = b[i]?) ∧
  ∃ pa pb : String,
    a[3]? = some ("ProxyCommand=sh -c '" ++ pa ++ "'") ∧
    b[3]? = some ("ProxyCommand=sh -c '" ++ pb ++ "'")

/-- Two runs of the ssh command in the world `w` went the same way: the same calls of the
resolver; ssh clients started in the same cases, with argument lists equal except for the
proxy command; a failure in both when no ssh client was started; and, once a client was
started, a failure exactly when that client failed. -/
def Agree (w : World) (l s : Run) : Prop :=
  l.resolved = s.resolved ∧
  List.Forall₂ SameExceptProxyCommand l.launched s.launched ∧
  (l.launched = [] → l.result.failed = true ∧ s.result.failed = true) ∧
  (∀ a ∈ l.launched, l.result.failed = (w.Run a).isSome) ∧
  (∀ b ∈ s.launched, s.result.failed = (w.Run b).isSome)

/-- The world `sampleWorld`, on a host where the `aws` command line is installed and the
`aws-ec2-ssh` tool is not on the search path: the ssh client ends with exit status 255 when the
proxy command it is given (its argument at index 3) runs the ssh-proxy subcommand, and exits
cleanly otherwise. -/
def proxylessWorld (files : List (String × FileMode)) (out : DescribeInstancesOutput) :
    World where
  UserHomeDir := (sampleWorld files out).UserHomeDir
  Stat := (sampleWorld files out).Stat
  LoadDefaultConfig := (sampleWorld files out).LoadDefaultConfig
  DescribeInstances := (sampleWorld files out).DescribeInstances
  Run := fun args =>
    if strings.Contains (args.getD 3 "") "aws-ec2-ssh ssh-proxy" then some "exit status 255"
    else none

/-- Two ssh argument lists built for the ports `p` and `q` are equal in every position except
the one after "-p": they have the same length, the same argument at every index other than 5,
"-p" at index 4, and at index 5 the decimal port, `p` in the first and `q` in the second. -/
def SameExceptPort (p q : Int) (a b : List String) : Prop :=
  a.length = b.length ∧
  (∀ n : Nat, n ≠ 5 → a[n]? = b[n]?) ∧
  a[4]? = some "-p" ∧
  a[5]? = some (fmt.Sprint p) ∧
  b[5]? = some (fmt.Sprint q)

/-- A world of the ssh-proxy subcommand for the examples: `sampleWorld`, every file holding
one public key, and an Instance Connect and a Session Manager that accept every request. -/
def sampleProxyWorld (files : List (String × FileMode)) : ProxyWorld where
  toWorld := sampleWorld files ⟨[]⟩
  ReadFile := fun _ => .ok "ssh-ed25519 AAAAC3NzaC1lZDI1NTE5 alice\n"
  SendSSHPublicKey := fun _ _ _ _ _ => none
  SSHSession := fun _ _ _ _ => none

/-! ## The resolver -/

theorem foldl_instances (g : Instance → String) (is : List Instance) (acc : List String) :
    is.foldl (fun matched inst => matched ++ [g inst]) acc = acc ++ is.map g := by
  induction is generalizing acc with
  | nil => simp
  | cons i is ih => simp [ih]

theorem collectMatches_eq (out : DescribeInstancesOutput) :
    collectMatches out = responseIDs out := by
  unfold collectMatches responseIDs
  have key : ∀ (rs : List Reservation) (acc : List String),
      rs.foldl (fun matched reservation =>
        reservation.Instances.foldl
          (fun matched inst => matched ++ [aws.ToString inst.InstanceId]) matched) acc
      = acc ++ rs.flatMap (fun r => r.Instances.map (fun i => aws.ToString i.InstanceId)) := by
    intro rs
    induction rs with
    | nil => intro acc; simp
    | cons r rs ih =>
      intro acc
      simp only [List.foldl_cons, List.flatMap_cons]
      rw [foldl_instances (fun i => aws.ToString i.InstanceId), ih, List.append_assoc]
  simpa using key out.Reservations []

theorem responseIDs_length (out : DescribeInstancesOutput) :
    (responseIDs out).length = responseCount out := by
  unfold responseIDs responseCount
  induction out.Reservations with
  | nil => simp
  | cons r rs ih => simp [List.flatMap_cons, ih]

theorem occursInOrder_prepend (xs : List String) (p s : List Char)
    (h : OccursInOrder xs s) : OccursInOrder xs (p ++ s) := by
  cases xs with
  | nil => trivial
  | cons x xs =>
    obtain ⟨a, b, hs, hb⟩ := h
    exact ⟨p ++ a, b, by simp [hs], hb⟩

theorem occursInOrder_join (sep : String) (xs : List String) (t : List Char) :
    OccursInOrder xs ((strings.Join xs sep).data ++ t) := by
  induction xs generalizing t with
  | nil => trivial
  | cons x xs ih =>
    cases xs with
    | nil => exact ⟨[], t, by simp [strings.Join], trivial⟩
    | cons y ys =>
      refine ⟨[], sep.data ++ ((strings.Join (y :: ys) sep).data ++ t), ?_, ?_⟩
      · simp [strings.Join]
      · exact occursInOrder_prepend _ _ _ (ih t)

theorem resolve_ok (w : World) (name profile region : String) (out : DescribeInstancesOutput)
    (hcfg : w.LoadDefaultConfig profile region = none)
    (hout : w.DescribeInstances profile region name = .ok out) :
    ResolveNameTagToInstanceID w name profile region =
      .ret (resolveMatches name (responseIDs out)) := by
  simp [ResolveNameTagToInstanceID, LoadAwsDefaultConfig, hcfg, hout, collectMatches_eq]

theorem occursInOrder_mem (xs : List String) (s : List Char) (h : OccursInOrder xs s) :
    ∀ x ∈ xs, x.data <:+: s := by
  induction xs generalizing s with
  | nil => intro x hx; cases hx
  | cons y ys ih =>
    obtain ⟨a, b, hs, hb⟩ := h
    intro x hx
    rcases List.mem_cons.mp hx with rfl | hx
    · exact ⟨a, b, hs.symm⟩
    · obtain ⟨u, v, huv⟩ := ih b hb x hx
      exact ⟨a ++ y.data ++ u, v, by rw [hs, ← huv]; simp⟩

theorem responseIDs_of_mem (out : DescribeInstancesOutput) (r : Reservation) (i : Instance)
    (hr : r ∈ out.Reservations) (hi : i ∈ r.Instances) :
    aws.ToString i.InstanceId ∈ responseIDs out := by
  unfold responseIDs
  exact List.mem_flatMap.mpr ⟨r, hr, List.mem_map.mpr ⟨i, hi, rfl⟩⟩

/-- C2: when the provider answers with two or more instances in total, the resolver returns
an empty instance ID and an error; the error message is the fixed text followed by the name in
quotes and the bracketed list of the matched IDs, so it contains the name and every matched ID,
the IDs one after the other in the order of the response. -/
theorem c2_ambiguous_error_lists_every_id (w : World) (name profile region : String)
    (out : DescribeInstancesOutput)
    (hcfg : w.LoadDefaultConfig profile region = none)
    (hout : w.DescribeInstances profile region name = .ok out)
    (hmany : 2 ≤ responseCount out) :
    ∃ msg : String,
      ResolveNameTagToInstanceID w name profile region = .ret ("", some msg) ∧
      msg = "there are multiple running instances with Name tag '" ++ name ++ "': [" ++
        strings.Join (responseIDs out) " " ++ "]" ∧
      name.data <:+: msg.data ∧
      (∀ id ∈ responseIDs out, id.data <:+: msg.data) ∧
      OccursInOrder (responseIDs out) msg.data := by
  have hlen := responseIDs_length out
  have hord : OccursInOrder (responseIDs out)
      ("there are multiple running instances with Name tag '" ++ name ++ "': [" ++
        strings.Join (responseIDs out) " " ++ "]").data := by
    have h := occursInOrder_join " " (responseIDs out) "]".data
    have h2 := occursInOrder_prepend _
      ("there are multiple running instances with Name tag '" ++ name ++ "': [").data _ h
    simpa [List.append_assoc] using h2
  refine ⟨_, ?_, rfl, ?_, occursInOrder_mem _ _ hord, hord⟩
  · rw [resolve_ok w name profile region out hcfg hout]
    have h0 : ¬ (responseIDs out).length = 0 := by omega
    have h1 : (responseIDs out).length > 1 := by omega
    simp only [resolveMatches, h0, h1, fmt.vStrings, if_true, if_false]
    refine congrArg Proc.ret (congrArg (fun m => ("", some m)) (String.ext ?_))
    simp [List.append_assoc]
  · refine ⟨"there are multiple running instances with Name tag '".data,
      ("': [" ++ strings.Join (responseIDs out) " " ++ "]").data, ?_⟩
    simp [List.append_assoc]

/-- C3: when the provider answers with exactly one instance in total, in whichever reservation
it appears, the resolver returns the ID of that instance and no error. -/
theorem c3_single_match_returns_its_id (w : World) (name profile region : String)
    (out : DescribeInstancesOutput) (r : Reservation) (i : Instance)
    (hcfg : w.LoadDefaultConfig profile region = none)
    (hout : w.DescribeInstances profile region name = .ok out)
    (hone : responseCount out = 1)
    (hr : r ∈ out.Reservations) (hi : i ∈ r.Instances) :
    ResolveNameTagToInstanceID w name profile region =
      .ret (aws.ToString i.InstanceId, none) := by
  have hlen := responseIDs_length out
  have hmem := responseIDs_of_mem out r i hr hi
  rw [resolve_ok w name profile region out hcfg hout]
  obtain ⟨x, hx⟩ : ∃ x, responseIDs out = [x] := by
    apply List.length_eq_one.mp
    omega
  rw [hx] at hmem ⊢
  have : aws.ToString i.InstanceId = x := by simpa using hmem
  simp [resolveMatches, this]

/-- C4: when the provider answers with no instance at all, the resolver returns an empty ID
and the error "there are no running instances with Name tag: " followed by the name. -/
theorem c4_no_match_error_names_input (w : World) (name profile region : String)
    (out : DescribeInstancesOutput)
    (hcfg : w.LoadDefaultConfig profile region = none)
    (hout : w.DescribeInstances profile region name = .ok out)
    (hnone : responseCount out = 0) :
    ∃ msg : String,
      ResolveNameTagToInstanceID w name profile region = .ret ("", some msg) ∧
      msg = "there are no running instances with Name tag: " ++ name ∧
      name.data <:+ msg.data := by
  have hlen := responseIDs_length out
  refine ⟨_, ?_, rfl, ?_⟩
  · rw [resolve_ok w name profile region out hcfg hout]
    have h0 : (responseIDs out).length = 0 := by omega
    simp [resolveMatches, h0]
  · exact ⟨"there are no running instances with Name tag: ".data, by simp⟩

theorem c2_witness :
    2 ≤ responseCount ⟨[⟨[⟨some "i-0aaaaaaaaaaaaaaa1"⟩]⟩, ⟨[]⟩, ⟨[⟨some "i-0bbbbbbbbbbbbbbb2"⟩]⟩]⟩ ∧
    ResolveNameTagToInstanceID
      (sampleWorld [] ⟨[⟨[⟨some "i-0aaaaaaaaaaaaaaa1"⟩]⟩, ⟨[]⟩, ⟨[⟨some "i-0bbbbbbbbbbbbbbb2"⟩]⟩]⟩)
      "web" "prod" "us-east-1" =
      .ret ("", some ("there are multiple running instances with Name tag 'web': " ++
        "[i-0aaaaaaaaaaaaaaa1 i-0bbbbbbbbbbbbbbb2]")) := by
  refine ⟨by decide, ?_⟩
  obtain ⟨msg, h, hmsg, -⟩ := c2_ambiguous_error_lists_every_id
    (sampleWorld [] ⟨[⟨[⟨some "i-0aaaaaaaaaaaaaaa1"⟩]⟩, ⟨[]⟩, ⟨[⟨some "i-0bbbbbbbbbbbbbbb2"⟩]⟩]⟩)
    "web" "prod" "us-east-1" _ rfl rfl (by decide)
  rw [h, hmsg]
  decide

theorem c3_witness :
    responseCount ⟨[⟨[]⟩, ⟨[⟨some "i-0aaaaaaaaaaaaaaa1"⟩]⟩, ⟨[]⟩]⟩ = 1 ∧
    ResolveNameTagToInstanceID
      (sampleWorld [] ⟨[⟨[]⟩, ⟨[⟨some "i-0aaaaaaaaaaaaaaa1"⟩]⟩, ⟨[]⟩]⟩) "web" "" "" =
      .ret ("i-0aaaaaaaaaaaaaaa1", none) :=
  ⟨by decide,
   c3_single_match_returns_its_id
    (sampleWorld [] ⟨[⟨[]⟩, ⟨[⟨some "i-0aaaaaaaaaaaaaaa1"⟩]⟩, ⟨[]⟩]⟩) "web" "" "" _
    ⟨[⟨some "i-0aaaaaaaaaaaaaaa1"⟩]⟩ ⟨some "i-0aaaaaaaaaaaaaaa1"⟩ rfl rfl (by decide)
    (by decide) (by decide)⟩

theorem c4_witness :
    responseCount ⟨[⟨[]⟩, ⟨[]⟩]⟩ = 0 ∧
    ResolveNameTagToInstanceID (sampleWorld [] ⟨[⟨[]⟩, ⟨[]⟩]⟩) "web" "" "" =
      .ret ("", some "there are no running instances with Name tag: web") := by
  refine ⟨by decide, ?_⟩
  obtain ⟨msg, h, hmsg, -⟩ := c4_no_match_error_names_input
    (sampleWorld [] ⟨[⟨[]⟩, ⟨[]⟩]⟩) "web" "" "" _ rfl rfl (by decide)
  rw [h, hmsg]
  decide

/-! ## The positional argument -/

theorem contains_at_iff (s : String) : strings.Contains s "@" = true ↔ '@' ∈ s.data := by
  unfold strings.Contains
  rw [decide_eq_true_iff]
  constructor
  · rintro ⟨a, b, h⟩
    rw [← h]
    simp
  · intro h
    obtain ⟨a, b, h⟩ := List.append_of_mem h
    exact ⟨a, b, by rw [h]; simp⟩

theorem cut_append (sep : Char) (u i : List Char) (hu : sep ∉ u) :
    strings.cut sep (u ++ sep :: i) = (u, i) := by
  induction u with
  | nil => simp [strings.cut]
  | cons x u ih =>
    have hx : x ≠ sep := fun h => hu (by simp [h])
    have hu2 : sep ∉ u := fun h => hu (by simp [h])
    simp [strings.cut, hx, ih hu2]

theorem splitTarget_of_isTarget (c : SSHCommand) (user inst : String)
    (h : IsTarget c.Args.Instance user inst) : c.splitTarget = (user, inst) := by
  rcases h with ⟨hno, hu, hi⟩ | ⟨hno, harg⟩
  · have hc : strings.Contains c.Args.Instance "@" = false := by
      rw [← Bool.not_eq_true, contains_at_iff]
      exact hno
    simp [SSHCommand.splitTarget, hc, hu, hi, defaultUser]
  · have hmem : '@' ∈ c.Args.Instance.data := by rw [harg]; simp
    have hc : strings.Contains c.Args.Instance "@" = true := (contains_at_iff _).mpr hmem
    have hdata : c.Args.Instance.data = user.data ++ '@' :: inst.data := by rw [harg]; simp
    simp [SSHCommand.splitTarget, hc, strings.SplitN2, hmem, hdata, cut_append _ _ _ hno]

theorem isTarget_splitTarget (c : SSHCommand) :
    IsTarget c.Args.Instance c.splitTarget.1 c.splitTarget.2 := by
  by_cases hmem : '@' ∈ c.Args.Instance.data
  · -- the first occurrence
    have key : ∀ (l : List Char), '@' ∈ l → ∃ u i, '@' ∉ u ∧ l = u ++ '@' :: i := by
      intro l
      induction l with
      | nil => intro h; cases h
      | cons x l ih =>
        intro h
        by_cases hx : x = '@'
        · exact ⟨[], l, by simp, by simp [hx]⟩
        · have hl : '@' ∈ l := by
            rcases List.mem_cons.mp h with h | h
            · exact absurd h.symm hx
            · exact h
          obtain ⟨u, i, hu, hl2⟩ := ih hl
          refine ⟨x :: u, i, ?_, by simp [hl2]⟩
          intro hmem2
          rcases List.mem_cons.mp hmem2 with h | h
          · exact hx h.symm
          · exact hu h
    obtain ⟨u, i, hu, hl⟩ := key _ hmem
    have ht : IsTarget c.Args.Instance ⟨u⟩ ⟨i⟩ :=
      Or.inr ⟨hu, String.ext (by simp [hl])⟩
    rw [splitTarget_of_isTarget c _ _ ht]
    exact ht
  · have ht : IsTarget c.Args.Instance "ec2-user" c.Args.Instance := Or.inl ⟨hmem, rfl, rfl⟩
    rw [splitTarget_of_isTarget c _ _ ht]
    exact ht

/-- C5: the ssh command splits the positional argument at its first `@`: when the argument is
`u`, an `@` and `i` with no `@` in `u`, the user is `u` and the instance part is `i` (whatever
`i` contains); when the argument has an `@`, user, `@` and instance part put together give the
argument back; when it has none, the user is "ec2-user" and the instance part is the whole
argument. -/
theorem c5_split_at_first_at_sign (c : SSHCommand) :
    (∀ u i : String, '@' ∉ u.data → c.Args.Instance = u ++ "@" ++ i →
      c.splitTarget = (u, i)) ∧
    ('@' ∈ c.Args.Instance.data →
      '@' ∉ c.splitTarget.1.data ∧
      c.splitTarget.1 ++ "@" ++ c.splitTarget.2 = c.Args.Instance) ∧
    ('@' ∉ c.Args.Instance.data → c.splitTarget = ("ec2-user", c.Args.Instance)) := by
  refine ⟨?_, ?_, ?_⟩
  · intro u i hu harg
    exact splitTarget_of_isTarget c u i (Or.inr ⟨hu, harg⟩)
  · intro hmem
    rcases isTarget_splitTarget c with ⟨hno, -, -⟩ | ⟨hno, harg⟩
    · exact absurd hmem hno
    · exact ⟨hno, harg.symm⟩
  · intro hno
    exact splitTarget_of_isTarget c _ _ (Or.inl ⟨hno, rfl, rfl⟩)

theorem c5_witness :
    SSHCommand.splitTarget ⟨"", "", "", 22, [], ⟨"user@i-0123456789abcdef0"⟩⟩ =
      ("user", "i-0123456789abcdef0") :=
  (c5_split_at_first_at_sign ⟨"", "", "", 22, [], ⟨"user@i-0123456789abcdef0"⟩⟩).1
    "user" "i-0123456789abcdef0" (by decide) (by decide)

/-! ## The ssh command as a whole -/

theorem connect_resolved (c : SSHCommand) (w : World) (calls : List (String × String × String))
    (publicKey user instanceId : String) :
    (c.connect w calls publicKey user instanceId).resolved = calls := by
  unfold SSHCommand.connect
  simp only
  split
  · rfl
  · split <;> rfl

theorem connect_launched (c : SSHCommand) (w : World) (calls : List (String × String × String))
    (publicKey user instanceId : String) (args : List String)
    (h : args ∈ (c.connect w calls publicKey user instanceId).launched) :
    (∃ fi, w.Stat (publicKey ++ ".pub") = .ok fi) ∧
    args = c.sshArgs publicKey (c.proxyCmd (publicKey ++ ".pub") user instanceId)
      user instanceId := by
  unfold SSHCommand.connect at h
  cases hs : w.Stat (publicKey ++ ".pub") with
  | error e => simp [hs] at h
  | ok fi =>
    refine ⟨⟨fi, rfl⟩, ?_⟩
    simp only [hs] at h
    cases hr : w.Run (c.sshArgs publicKey (c.proxyCmd (publicKey ++ ".pub") user instanceId)
      user instanceId) <;> simpa [hr] using h

theorem sshArgs_getLast (c : SSHCommand) (publicKey proxyCmd user instanceId : String) :
    (c.sshArgs publicKey proxyCmd user instanceId).getLast? = some (user ++ "@" ++ instanceId) := by
  simp [SSHCommand.sshArgs]

theorem locateKey_ret (c : SSHCommand) (w : World)
    (h : c.PublicKey ≠ "" ∨ (FindDefaultSSHPrivateKey w).2 = none) :
    c.locateKey w = .ret (if c.PublicKey = "" then (FindDefaultSSHPrivateKey w).1
      else c.PublicKey) := by
  unfold SSHCommand.locateKey
  by_cases hk : c.PublicKey = ""
  · have h2 : (FindDefaultSSHPrivateKey w).2 = none := by
      rcases h with h | h
      · exact absurd hk h
      · exact h
    rcases hf : FindDefaultSSHPrivateKey w with ⟨path, err⟩
    rw [hf] at h2
    simp only at h2
    subst h2
    simp [hk]
  · simp [hk]

/-- C1 (amended): when the instance part of the positional argument matches the instance ID
pattern, the ssh command never calls the resolver, and every ssh client it starts gets
user@instance-part, the instance part unchanged, as its last argument.  When the instance part
does not match, every call of the resolver is a call with exactly that string (and the profile
and region of the command), and there is exactly one such call as soon as a private key was
given with the key flag or located in the default places.  When no key is given and none is
located, the command ends at the key lookup with its fatal message: the resolver is not called
and no ssh client is started, whatever the instance part is. -/
theorem c1_id_shaped_argument_bypasses_resolver (c : SSHCommand) (w : World)
    (user inst : String) (htarget : IsTarget c.Args.Instance user inst) :
    (instanceIDPattern inst = true →
      (c.Execute w).resolved = [] ∧
      ∀ args ∈ (c.Execute w).launched, args.getLast? = some (user ++ "@" ++ inst)) ∧
    (instanceIDPattern inst = false →
      (∀ call ∈ (c.Execute w).resolved, call = (inst, c.Profile, c.Region)) ∧
      (c.PublicKey ≠ "" ∨ (FindDefaultSSHPrivateKey w).2 = none →
        (c.Execute w).resolved = [(inst, c.Profile, c.Region)])) ∧
    (c.PublicKey = "" → (FindDefaultSSHPrivateKey w).2 ≠ none →
      (c.Execute w).resolved = [] ∧ (c.Execute w).launched = [] ∧
      (c.Execute w).result =
        .fatal ("SSH private key was not found in ~/.ssh " ++
          "(tried id_rsa, id_ecdsa, id_ecdsa_sk, id_ed25519, id_ed25519_sk)\n")) := by
  have hsplit := splitTarget_of_isTarget c user inst htarget
  have hres : ∀ key, c.locateKey w = .ret key → instanceIDPattern inst = false →
      (c.Execute w).resolved = [(inst, c.Profile, c.Region)] := by
    intro key hkey hpat
    unfold SSHCommand.Execute
    simp only [hkey, hsplit, hpat]
    cases ResolveNameTagToInstanceID w inst c.Profile c.Region with
    | fatal msg => rfl
    | ret r =>
      obtain ⟨resolved, err⟩ := r
      cases err with
      | some e => rfl
      | none => exact connect_resolved _ _ _ _ _ _
  refine ⟨?_, ?_, ?_⟩
  rotate_left 2
  · intro hk herr
    have hkey : c.locateKey w =
        .fatal ("SSH private key was not found in ~/.ssh " ++
          "(tried id_rsa, id_ecdsa, id_ecdsa_sk, id_ed25519, id_ed25519_sk)\n") := by
      unfold SSHCommand.locateKey
      rw [if_pos hk]
      rcases hf : FindDefaultSSHPrivateKey w with ⟨path, err⟩
      rw [hf] at herr
      cases err with
      | none => exact absurd rfl herr
      | some e => rfl
    unfold SSHCommand.Execute
    rw [hkey]
    exact ⟨rfl, rfl, rfl⟩
  · intro hpat
    unfold SSHCommand.Execute
    cases hkey : c.locateKey w with
    | fatal msg => simp
    | ret key =>
      simp only [hsplit, hpat]
      refine ⟨connect_resolved _ _ _ _ _ _, ?_⟩
      intro args hargs
      rw [(connect_launched _ _ _ _ _ _ _ hargs).2]
      exact sshArgs_getLast _ _ _ _ _
  · intro hpat
    refine ⟨?_, ?_⟩
    · intro call hcall
      cases hkey : c.locateKey w with
      | fatal msg =>
        unfold SSHCommand.Execute at hcall
        simp [hkey] at hcall
      | ret key =>
        rw [hres key hkey hpat] at hcall
        simpa using hcall
    · intro hfound
      exact hres _ (locateKey_ret c w hfound) hpat

theorem c1_witness :
    (SSHCommand.Execute ⟨"prod", "us-east-1", "", 22, [], ⟨"admin@mi-0123456789abcdef0"⟩⟩
      (sampleWorld [("/home/alice/.ssh/id_rsa", .regular),
        ("/home/alice/.ssh/id_rsa.pub", .regular)] ⟨[⟨[⟨some "i-0aaaaaaaaaaaaaaa1"⟩]⟩]⟩)).resolved
      = [] ∧
    (SSHCommand.Execute ⟨"prod", "us-east-1", "", 22, [], ⟨"web-server"⟩⟩
      (sampleWorld [("/home/alice/.ssh/id_rsa", .regular),
        ("/home/alice/.ssh/id_rsa.pub", .regular)] ⟨[⟨[⟨some "i-0aaaaaaaaaaaaaaa1"⟩]⟩]⟩)).resolved
      = [("web-server", "prod", "us-east-1")] ∧
    ((SSHCommand.Execute ⟨"prod", "us-east-1", "", 22, [], ⟨"admin@db-server"⟩⟩
      (sampleWorld [("/home/alice/.ssh/id_rsa.pub", .regular)]
        ⟨[⟨[⟨some "i-0aaaaaaaaaaaaaaa1"⟩]⟩]⟩)).resolved = [] ∧
     (SSHCommand.Execute ⟨"prod", "us-east-1", "", 22, [], ⟨"admin@db-server"⟩⟩
      (sampleWorld [("/home/alice/.ssh/id_rsa.pub", .regular)]
        ⟨[⟨[⟨some "i-0aaaaaaaaaaaaaaa1"⟩]⟩]⟩)).launched = [] ∧
     (SSHCommand.Execute ⟨"prod", "us-east-1", "", 22, [], ⟨"admin@db-server"⟩⟩
      (sampleWorld [("/home/alice/.ssh/id_rsa.pub", .regular)]
        ⟨[⟨[⟨some "i-0aaaaaaaaaaaaaaa1"⟩]⟩]⟩)).result =
      .fatal ("SSH private key was not found in ~/.ssh " ++
        "(tried id_rsa, id_ecdsa, id_ecdsa_sk, id_ed25519, id_ed25519_sk)\n")) :=
  ⟨((c1_id_shaped_argument_bypasses_resolver
      ⟨"prod", "us-east-1", "", 22, [], ⟨"admin@mi-0123456789abcdef0"⟩⟩ _
      "admin" "mi-0123456789abcdef0" (Or.inr ⟨by decide, by decide⟩)).1 (by decide)).1,
   ((c1_id_shaped_argument_bypasses_resolver
      ⟨"prod", "us-east-1", "", 22, [], ⟨"web-server"⟩⟩ _
      "ec2-user" "web-server" (Or.inl ⟨by decide, rfl, rfl⟩)).2.1 (by decide)).2
      (Or.inr (by decide)),
   (c1_id_shaped_argument_bypasses_resolver
      ⟨"prod", "us-east-1", "", 22, [], ⟨"admin@db-server"⟩⟩
      (sampleWorld [("/home/alice/.ssh/id_rsa.pub", .regular)]
        ⟨[⟨[⟨some "i-0aaaaaaaaaaaaaaa1"⟩]⟩]⟩)
      "admin" "db-server" (Or.inr ⟨by decide, by decide⟩)).2.2 rfl (by decide)⟩

/-- C1, as stated, fails: with no key flag and no default key on disk the command ends at the
key lookup; the instance part "web-server" does not match the pattern, and the resolver is not
called at all. -/
theorem c1_counterexample :
    IsTarget "web-server" "ec2-user" "web-server" ∧
    instanceIDPattern "web-server" = false ∧
    (SSHCommand.Execute ⟨"", "", "", 22, [], ⟨"web-server"⟩⟩
      (sampleWorld [] ⟨[⟨[⟨some "i-0aaaaaaaaaaaaaaa1"⟩]⟩]⟩)).resolved = [] ∧
    (SSHCommand.Execute ⟨"", "", "", 22, [], ⟨"web-server"⟩⟩
      (sampleWorld [] ⟨[⟨[⟨some "i-0aaaaaaaaaaaaaaa1"⟩]⟩]⟩)).result =
      .fatal ("SSH private key was not found in ~/.ssh " ++
        "(tried id_rsa, id_ecdsa, id_ecdsa_sk, id_ed25519, id_ed25519_sk)\n") :=
  ⟨Or.inl ⟨by decide, rfl, rfl⟩, by decide, by decide, by decide⟩

theorem execute_launched (c : SSHCommand) (w : World) (args : List String)
    (h : args ∈ (c.Execute w).launched) :
    ∃ key instanceId,
      c.locateKey w = .ret key ∧
      (∃ fi, w.Stat (ExpandTilde w key ++ ".pub") = .ok fi) ∧
      args = c.sshArgs (ExpandTilde w key)
        (c.proxyCmd (ExpandTilde w key ++ ".pub") c.splitTarget.1 instanceId)
        c.splitTarget.1 instanceId := by
  unfold SSHCommand.Execute at h
  cases hkey : c.locateKey w with
  | fatal msg => simp [hkey] at h
  | ret key =>
    simp only [hkey] at h
    by_cases hpat : instanceIDPattern c.splitTarget.2 = true
    · simp only [hpat] at h
      obtain ⟨hstat, hargs⟩ := connect_launched _ _ _ _ _ _ _ h
      exact ⟨key, _, rfl, hstat, hargs⟩
    · simp only [hpat] at h
      cases hr : ResolveNameTagToInstanceID w c.splitTarget.2 c.Profile c.Region with
      | fatal msg => simp [hr] at h
      | ret r =>
        obtain ⟨resolved, err⟩ := r
        cases err with
        | some e => simp [hr] at h
        | none =>
          simp only [hr] at h
          obtain ⟨hstat, hargs⟩ := connect_launched _ _ _ _ _ _ _ h
          exact ⟨key, _, rfl, hstat, hargs⟩

theorem repeat_v (n : Nat) : strings.Repeat "v" n = ⟨List.replicate n 'v'⟩ := by
  induction n with
  | zero => rfl
  | succ n ih =>
    apply String.ext
    simp [strings.Repeat, ih, List.replicate_succ]

/-- C10: the argument list built for the ssh client is "-i", the key path, "-o",
"ProxyCommand=sh -c '" with the proxy command and a closing quote, "-p", the port in decimal,
then, only when the verbosity count n is positive, one argument made of "-" and n letters v,
and last user@instance-ID; every ssh client the command starts is started with a list of
exactly this form. -/
theorem c10_ssh_argument_list (c : SSHCommand) :
    (∀ publicKey proxyCmd user instanceId : String,
      c.sshArgs publicKey proxyCmd user instanceId =
        ["-i", publicKey, "-o", "ProxyCommand=sh -c '" ++ proxyCmd ++ "'", "-p",
          if 0 ≤ c.Port then Nat.repr c.Port.toNat else "-" ++ Nat.repr c.Port.natAbs] ++
        (if c.Verbose.length = 0 then []
          else [String.mk ('-' :: List.replicate c.Verbose.length 'v')]) ++
        [user ++ "@" ++ instanceId]) ∧
    (∀ (w : World), ∀ args ∈ (c.Execute w).launched,
      ∃ publicKey proxyCmd user instanceId : String,
        args = c.sshArgs publicKey proxyCmd user instanceId) := by
  refine ⟨?_, ?_⟩
  · intro publicKey proxyCmd user instanceId
    have hport : fmt.Sprint c.Port =
        if 0 ≤ c.Port then Nat.repr c.Port.toNat else "-" ++ Nat.repr c.Port.natAbs := by
      unfold fmt.Sprint
      cases hp : c.Port with
      | ofNat m => simp [toString, Int.repr]
      | negSucc m =>
        have : ¬ (0 : Int) ≤ Int.negSucc m := by
          have := Int.negSucc_lt_zero m
          omega
        simp [toString, Int.repr, this, Int.natAbs]
    have hv : "-" ++ strings.Repeat "v" c.Verbose.length =
        String.mk ('-' :: List.replicate c.Verbose.length 'v') := by
      rw [repeat_v]
      rfl
    unfold SSHCommand.sshArgs
    by_cases hn : c.Verbose.length = 0
    · simp [hn, hport]
    · have hn2 : c.Verbose.length > 0 := Nat.pos_of_ne_zero hn
      simp only [hn2, hn, if_true, if_false, hport, hv]
  · intro w args hargs
    obtain ⟨key, instanceId, -, -, h⟩ := execute_launched c w args hargs
    exact ⟨_, _, _, _, h⟩

theorem c10_witness :
    SSHCommand.sshArgs ⟨"", "", "", 2222, [true, true, true], ⟨"admin@web"⟩⟩
      "/home/alice/.ssh/id_rsa" "proxy" "admin" "i-0123456789abcdef0" =
      ["-i", "/home/alice/.ssh/id_rsa", "-o", "ProxyCommand=sh -c 'proxy'", "-p", "2222",
        "-vvv", "admin@i-0123456789abcdef0"] := by
  rw [(c10_ssh_argument_list _).1]
  decide

/-! ## `filepath.Clean` and `filepath.Join` -/

theorem head_append_of_head {x : Char} (buf t : List Char) (h : buf.head? = some x) :
    (buf ++ t).head? = some x := by
  cases buf with
  | nil => cases h
  | cons y ys => simpa using h

theorem backtrack_spec (dotdot : Nat) (rev : List Char) (h : dotdot < rev.length) :
    ∃ pre, rev = pre ++ filepath.backtrack dotdot rev ∧
      dotdot ≤ (filepath.backtrack dotdot rev).length := by
  induction rev with
  | nil => cases h
  | cons c rest ih =>
    unfold filepath.backtrack
    by_cases hc : dotdot < rest.length ∧ c ≠ '/'
    · obtain ⟨pre, hpre, hlen⟩ := ih hc.1
      rw [if_pos hc]
      exact ⟨c :: pre, by rw [List.cons_append, ← hpre], hlen⟩
    · rw [if_neg hc]
      refine ⟨[c], rfl, ?_⟩
      simp only [List.length_cons] at h
      omega

theorem backtrack_head (buf : List Char) (h : 1 < buf.length) (hh : buf.head? = some '/') :
    (filepath.backtrack 1 buf.reverse).reverse.head? = some '/' := by
  obtain ⟨pre, hpre, hlen⟩ := backtrack_spec 1 buf.reverse (by simpa using h)
  have hbuf : buf = (filepath.backtrack 1 buf.reverse).reverse ++ pre.reverse := by
    have := congrArg List.reverse hpre
    simpa using this
  have hlen2 : 1 ≤ (filepath.backtrack 1 buf.reverse).reverse.length := by simpa using hlen
  generalize (filepath.backtrack 1 buf.reverse).reverse = bt at hbuf hlen2 ⊢
  cases bt with
  | nil => simp at hlen2
  | cons y ys =>
    rw [hbuf] at hh
    simpa using hh

theorem cleanStep_rooted (s : CleanState) (c : Char) (rest : List Char)
    (hd : s.dotdot = 1) (hh : s.buf.head? = some '/') :
    (filepath.cleanStep true s c rest).dotdot = 1 ∧
    (filepath.cleanStep true s c rest).buf.head? = some '/' := by
  unfold filepath.cleanStep
  split
  · exact ⟨hd, hh⟩
  · split
    · exact ⟨hd, hh⟩
    · exact ⟨hd, head_append_of_head _ _ hh⟩
  · split
    · exact ⟨hd, hh⟩
    · split
      · exact ⟨hd, hh⟩
      · split
        · split
          · rename_i hlen
            rw [hd] at hlen
            refine ⟨hd, ?_⟩
            simp only [hd]
            exact backtrack_head s.buf hlen hh
          · split
            · rename_i hnr
              exact absurd rfl hnr
            · exact ⟨hd, hh⟩
        · refine ⟨hd, ?_⟩
          apply head_append_of_head
          split
          · exact head_append_of_head _ _ hh
          · exact hh

theorem cleanLoop_rooted (l : List Char) (s : CleanState)
    (hd : s.dotdot = 1) (hh : s.buf.head? = some '/') :
    (filepath.cleanLoop true l s).buf.head? = some '/' := by
  induction l generalizing s with
  | nil => exact hh
  | cons c rest ih =>
    obtain ⟨hd2, hh2⟩ := cleanStep_rooted s c rest hd hh
    exact ih _ hd2 hh2

theorem clean_rooted (path : String) (h : path.data.head? = some '/') :
    (filepath.Clean path).data.head? = some '/' := by
  have hne : path ≠ "" := by
    intro h0
    rw [h0] at h
    cases h
  have hout := cleanLoop_rooted path.data.tail ⟨.start, ['/'], 1⟩ rfl rfl
  unfold filepath.Clean
  simp only [hne, if_false, h, decide_True, if_true]
  split
  · rename_i hlen
    rw [List.length_eq_zero] at hlen
    rw [hlen] at hout
    cases hout
  · exact hout

theorem join_absolute (home x : String) (h : home.data.head? = some '/') :
    (filepath.Join [home, x]).data.head? = some '/' := by
  have hne : home ≠ "" := by
    intro h0
    rw [h0] at h
    cases h
  have hj : (strings.Join [home, x] "/").data.head? = some '/' := by
    simp only [strings.Join, String.data_append, List.append_assoc]
    exact head_append_of_head _ _ h
  simp only [filepath.Join, hne, ne_eq, not_false_eq_true, if_true]
  exact clean_rooted _ hj

theorem hasPrefix_false_of_rooted (path : String) (h : path.data.head? = some '/') :
    strings.HasPrefix path "~/" = false := by
  unfold strings.HasPrefix
  cases hp : path.data with
  | nil => rw [hp] at h; cases h
  | cons c cs =>
    rw [hp] at h
    have hc : c = '/' := by simpa using h
    subst hc
    show (['~', '/'] : List Char).isPrefixOf ('/' :: cs) = false
    simp [List.isPrefixOf]

theorem cleanLoop_copy (rooted : Bool) (e tail buf : List Char) (dotdot : Nat)
    (he : '/' ∉ e) :
    filepath.cleanLoop rooted (e ++ tail) ⟨.copy, buf, dotdot⟩ =
      filepath.cleanLoop rooted tail ⟨.copy, buf ++ e, dotdot⟩ := by
  induction e generalizing buf with
  | nil => simp
  | cons c e ih =>
    have hc : c ≠ '/' := fun h => he (by simp [h])
    have he2 : '/' ∉ e := fun h => he (by simp [h])
    rw [List.cons_append, filepath.cleanLoop]
    simp only [filepath.cleanStep, hc, if_false]
    rw [ih _ he2]
    simp

theorem plainElem_cases (e : List Char) (h : PlainElem e = true) :
    ∃ c e', e = c :: e' ∧ c ≠ '/' ∧ '/' ∉ e' ∧
      (c = '.' → ∃ d e'', e' = d :: e'' ∧ d ≠ '/' ∧ (d = '.' → ∃ x e3, e'' = x :: e3 ∧ x ≠ '/')) := by
  unfold PlainElem at h
  obtain ⟨hne, hsl2, hdot, hdd⟩ := of_decide_eq_true h
  cases e with
  | nil => exact absurd rfl hne
  | cons c e' =>
    refine ⟨c, e', rfl, fun h => hsl2 (by simp [h]), fun h => hsl2 (by simp [h]), ?_⟩
    intro hc
    subst hc
    cases e' with
    | nil => exact absurd rfl hdot
    | cons d e'' =>
      refine ⟨d, e'', rfl, fun h => hsl2 (by simp [h]), ?_⟩
      intro hd
      subst hd
      cases e'' with
      | nil => exact absurd rfl hdd
      | cons x e3 => exact ⟨x, e3, rfl, fun h => hsl2 (by simp [h])⟩

theorem cleanStep_plain (e tail buf : List Char) (dotdot : Nat)
    (he : PlainElem e = true) :
    ∃ c e', e = c :: e' ∧ '/' ∉ e' ∧
      filepath.cleanStep true ⟨.start, buf, dotdot⟩ c (e' ++ tail) =
        ⟨.copy, (if buf.length = 1 then buf else buf ++ ['/']) ++ [c], dotdot⟩ := by
  obtain ⟨c, e', rfl, hc, hsl, hdot⟩ := plainElem_cases e he
  refine ⟨c, e', rfl, hsl, ?_⟩
  by_cases hcd : c = '.'
  · obtain ⟨d, e'', rfl, hd, hdd⟩ := hdot hcd
    have h1 : ¬ (c = '.' ∧ (((d :: e'') ++ tail).head? = none ∨
        ((d :: e'') ++ tail).head? = some '/')) := by
      rintro ⟨-, h | h⟩
      · simp at h
      · simp at h
        exact hd h
    have h2 : ¬ (c = '.' ∧ ((d :: e'') ++ tail).head? = some '.' ∧
        ((((d :: e'') ++ tail).drop 1).head? = none ∨
          (((d :: e'') ++ tail).drop 1).head? = some '/')) := by
      rintro ⟨-, hdot2, h⟩
      have hd2 : d = '.' := by simpa using hdot2
      obtain ⟨x, e3, rfl, hx⟩ := hdd hd2
      rcases h with h | h
      · simp at h
      · simp at h
        exact hx h
    simp only [filepath.cleanStep, hc, if_false, h1, h2]
    by_cases hl : buf.length = 1 <;> simp [hl]
  · have h1 : ¬ (c = '.' ∧ ((e' ++ tail).head? = none ∨ (e' ++ tail).head? = some '/')) :=
      fun h => hcd h.1
    have h2 : ¬ (c = '.' ∧ (e' ++ tail).head? = some '.' ∧
        (((e' ++ tail).drop 1).head? = none ∨ ((e' ++ tail).drop 1).head? = some '/')) :=
      fun h => hcd h.1
    simp only [filepath.cleanStep, hc, if_false, h1, h2]
    by_cases hl : buf.length = 1 <;> simp [hl]

theorem cleanLoop_plain (e tail buf : List Char) (dotdot : Nat) (he : PlainElem e = true) :
    filepath.cleanLoop true (e ++ tail) ⟨.start, buf, dotdot⟩ =
      filepath.cleanLoop true tail
        ⟨.copy, (if buf.length = 1 then buf else buf ++ ['/']) ++ e, dotdot⟩ := by
  obtain ⟨c, e', rfl, hsl, hstep⟩ := cleanStep_plain e tail buf dotdot he
  rw [List.cons_append, filepath.cleanLoop, hstep, cleanLoop_copy _ _ _ _ _ hsl]
  simp

theorem cleanLoop_elems (elems : List (List Char)) (hne : elems ≠ [])
    (hplain : ∀ e ∈ elems, PlainElem e = true) (buf : List Char) (dotdot : Nat)
    (hbuf : buf ≠ []) :
    (filepath.cleanLoop true (joinElems elems) ⟨.start, buf, dotdot⟩).buf =
      (if buf.length = 1 then buf else buf ++ ['/']) ++ joinElems elems := by
  induction elems generalizing buf with
  | nil => exact absurd rfl hne
  | cons e rest ih =>
    have he := hplain e (by simp)
    cases rest with
    | nil =>
      have h := cleanLoop_plain e [] buf dotdot he
      simp only [List.append_nil] at h
      simp [joinElems, h, filepath.cleanLoop]
    | cons f rest2 =>
      have h := cleanLoop_plain e ('/' :: joinElems (f :: rest2)) buf dotdot he
      have hpos : 0 < buf.length := List.length_pos.mpr hbuf
      obtain ⟨c, e', hce, -⟩ := plainElem_cases e he
      have hlen : ((if buf.length = 1 then buf else buf ++ ['/']) ++ e).length ≠ 1 := by
        rw [hce]
        split <;> simp <;> omega
      have hne2 : (if buf.length = 1 then buf else buf ++ ['/']) ++ e ≠ [] := by
        rw [hce]
        simp
      rw [joinElems, h, filepath.cleanLoop]
      simp only [filepath.cleanStep, if_true]
      rw [ih (by simp) (fun x hx => hplain x (by simp [hx])) _ hne2, if_neg hlen]
      simp

theorem clean_of_cleanAbsolute (p : String) (h : CleanAbsolute p) : filepath.Clean p = p := by
  obtain ⟨elems, hne, hplain, hp⟩ := h
  have hne2 : p ≠ "" := by
    intro h0
    rw [h0] at hp
    cases hp
  have hbuf := cleanLoop_elems elems hne hplain ['/'] 1 (by simp)
  unfold filepath.Clean
  simp only [hne2, if_false, hp, List.head?_cons, decide_True, if_true, List.tail_cons, hbuf]
  apply String.ext
  simp [hp]


theorem joinElems_append (a b : List (List Char)) (ha : a ≠ []) (hb : b ≠ []) :
    joinElems (a ++ b) = joinElems a ++ '/' :: joinElems b := by
  induction a with
  | nil => exact absurd rfl ha
  | cons e rest ih =>
    cases rest with
    | nil =>
      cases b with
      | nil => exact absurd rfl hb
      | cons f rest2 => simp [joinElems]
    | cons f rest2 =>
      have h := ih (by simp)
      simp only [List.cons_append] at h ⊢
      simp [joinElems, h]

theorem join_of_clean (home rest : String) (hh : CleanAbsolute home) (hr : CleanRelative rest) :
    filepath.Join [home, rest] = home ++ "/" ++ rest := by
  obtain ⟨helems, hne, hplain, hdata⟩ := hh
  obtain ⟨relems, rne, rplain, rdata⟩ := hr
  have hne2 : home ≠ "" := by
    intro h0
    rw [h0] at hdata
    cases hdata
  have hclean : CleanAbsolute (home ++ "/" ++ rest) := by
    refine ⟨helems ++ relems, by simp [hne], ?_, ?_⟩
    · intro e he
      rcases List.mem_append.mp he with he | he
      · exact hplain e he
      · exact rplain e he
    · rw [joinElems_append _ _ hne rne]
      simp [hdata, rdata]
  simp only [filepath.Join, hne2, ne_eq, not_false_eq_true, if_true, strings.Join]
  exact clean_of_cleanAbsolute _ hclean

/-! ## Key files -/

theorem expandTilde_of_tilde_slash (w : World) (rest : String) :
    ExpandTilde w ("~/" ++ rest) = filepath.Join [w.home, rest] := by
  have h1 : strings.HasPrefix ("~/" ++ rest) "~/" = true := by
    simp [strings.HasPrefix, List.isPrefixOf]
  have h2 : (⟨("~/" ++ rest).data.drop 2⟩ : String) = rest := by
    apply String.ext
    simp
  simp [ExpandTilde, h1, h2]

theorem expandTilde_of_not_tilde_slash (w : World) (path : String)
    (h : strings.HasPrefix path "~/" = false) : ExpandTilde w path = path := by
  simp [ExpandTilde, h]

theorem hasPrefix_tilde_slash_iff (path : String) :
    strings.HasPrefix path "~/" = true ↔ ∃ rest : String, path = "~/" ++ rest := by
  unfold strings.HasPrefix
  rw [ List.isPrefixOf_iff_prefix]
  constructor
  · rintro ⟨t, ht⟩
    exact ⟨⟨t⟩, String.ext (by simp [← ht])⟩
  · rintro ⟨rest, rfl⟩
    exact ⟨rest.data, by simp⟩

/-- C7 (amended): a path made of "~/" and a rest is expanded to the home directory joined
(by `filepath.Join`, which also cleans the result) with the rest; for a home directory in clean
absolute form and a rest in clean relative form that is the home directory, a slash and the
rest.  Every other path is returned unchanged: every path that does not begin with a tilde, and
also every path that begins with a tilde not followed by a slash. -/
theorem c7_expand_tilde_slash_only (w : World) (path : String) :
    (∀ rest : String, path = "~/" ++ rest →
      ExpandTilde w path = filepath.Join [w.home, rest]) ∧
    (∀ rest : String, path = "~/" ++ rest → CleanAbsolute w.home → CleanRelative rest →
      ExpandTilde w path = w.home ++ "/" ++ rest) ∧
    ((¬ ∃ rest : String, path = "~/" ++ rest) → ExpandTilde w path = path) ∧
    (path.data.head? ≠ some '~' → ExpandTilde w path = path) := by
  have hnot : (¬ ∃ rest : String, path = "~/" ++ rest) → ExpandTilde w path = path := by
    intro h
    apply expandTilde_of_not_tilde_slash
    rw [← Bool.not_eq_true, hasPrefix_tilde_slash_iff]
    exact h
  refine ⟨?_, ?_, hnot, ?_⟩
  · rintro rest rfl
    exact expandTilde_of_tilde_slash w rest
  · rintro rest rfl hh hr
    rw [expandTilde_of_tilde_slash w rest]
    exact join_of_clean _ _ hh hr
  · intro h
    apply hnot
    rintro ⟨rest, rfl⟩
    exact h (by simp)

theorem c7_witness :
    ExpandTilde (sampleWorld [] ⟨[]⟩) "~/.ssh/id_rsa" = "/home/alice/.ssh/id_rsa" ∧
    ExpandTilde (sampleWorld [] ⟨[]⟩) "/etc/keys/id_rsa" = "/etc/keys/id_rsa" := by
  refine ⟨?_, ?_⟩
  · exact (c7_expand_tilde_slash_only (sampleWorld [] ⟨[]⟩) "~/.ssh/id_rsa").2.1 ".ssh/id_rsa"
      (by decide) ⟨["home".data, "alice".data], by decide, by decide, by decide⟩
      ⟨[".ssh".data, "id_rsa".data], by decide, by decide, by decide⟩
  · exact (c7_expand_tilde_slash_only (sampleWorld [] ⟨[]⟩) "/etc/keys/id_rsa").2.2.2
      (by decide)

/-- C7, as stated, fails: the paths "~" and "~alice/.ssh/id_rsa" begin with a tilde and are
returned unchanged, not expanded against the home directory /home/alice. -/
theorem c7_counterexample :
    "~".data.head? = some '~' ∧
    ExpandTilde (sampleWorld [] ⟨[]⟩) "~" = "~" ∧
    "~alice/.ssh/id_rsa".data.head? = some '~' ∧
    ExpandTilde (sampleWorld [] ⟨[]⟩) "~alice/.ssh/id_rsa" = "~alice/.ssh/id_rsa" ∧
    (sampleWorld [] ⟨[]⟩).home = "/home/alice" := by
  decide

theorem loop_step_found (w : World) (k : String) (ks : List String)
    (h : ExistsNotDir w (ExpandTilde w k) = true) :
    FindDefaultSSHPrivateKey.loop w (k :: ks) = (ExpandTilde w k, none) := by
  unfold ExistsNotDir at h
  cases hs : w.Stat (ExpandTilde w k) with
  | error e => simp [hs] at h
  | ok fi =>
    rw [hs] at h
    simp only at h
    simp [FindDefaultSSHPrivateKey.loop, hs, h]

theorem loop_step_skip (w : World) (k : String) (ks : List String)
    (h : ExistsNotDir w (ExpandTilde w k) = false) :
    FindDefaultSSHPrivateKey.loop w (k :: ks) = FindDefaultSSHPrivateKey.loop w ks := by
  unfold ExistsNotDir at h
  cases hs : w.Stat (ExpandTilde w k) with
  | error e => simp [FindDefaultSSHPrivateKey.loop, hs]
  | ok fi =>
    rw [hs] at h
    simp only at h
    simp [FindDefaultSSHPrivateKey.loop, hs, h]

theorem loop_first (w : World) (pre : List String) (k : String) (post : List String)
    (hpre : ∀ q ∈ pre, ExistsNotDir w (ExpandTilde w q) = false)
    (hk : ExistsNotDir w (ExpandTilde w k) = true) :
    FindDefaultSSHPrivateKey.loop w (pre ++ k :: post) = (ExpandTilde w k, none) := by
  induction pre with
  | nil => exact loop_step_found w k post hk
  | cons q pre ih =>
    rw [List.cons_append, loop_step_skip w q _ (hpre q (by simp))]
    exact ih (fun q' hq' => hpre q' (by simp [hq']))

theorem loop_none (w : World) (ks : List String)
    (h : ∀ q ∈ ks, ExistsNotDir w (ExpandTilde w q) = false) :
    FindDefaultSSHPrivateKey.loop w ks = ("", some "unable to find default SSH private key") := by
  induction ks with
  | nil => rfl
  | cons q ks ih =>
    rw [loop_step_skip w q _ (h q (by simp))]
    exact ih (fun q' hq' => h q' (by simp [hq']))

theorem loop_ok (w : World) (ks : List String) (path : String)
    (h : FindDefaultSSHPrivateKey.loop w ks = (path, none)) :
    ∃ k ∈ ks, path = ExpandTilde w k ∧ ExistsNotDir w path = true := by
  induction ks with
  | nil => simp [FindDefaultSSHPrivateKey.loop] at h
  | cons q ks ih =>
    cases hq : ExistsNotDir w (ExpandTilde w q) with
    | true =>
      rw [loop_step_found w q ks hq] at h
      have hp : ExpandTilde w q = path := by simpa using h
      exact ⟨q, by simp, hp.symm, hp ▸ hq⟩
    | false =>
      rw [loop_step_skip w q ks hq] at h
      obtain ⟨k, hk, hpath, hex⟩ := ih h
      exact ⟨k, by simp [hk], hpath, hex⟩

theorem loop_some_exists (w : World) (ks : List String) (k : String) (hk : k ∈ ks)
    (hex : ExistsNotDir w (ExpandTilde w k) = true) :
    (FindDefaultSSHPrivateKey.loop w ks).2 = none := by
  induction ks with
  | nil => cases hk
  | cons q ks ih =>
    cases hq : ExistsNotDir w (ExpandTilde w q) with
    | true => rw [loop_step_found w q ks hq]
    | false =>
      rw [loop_step_skip w q ks hq]
      apply ih
      rcases List.mem_cons.mp hk with rfl | hk
      · rw [hq] at hex
        cases hex
      · exact hk

theorem defaultKeyPaths_eq (w : World) :
    defaultPrivateKeyFiles.map (ExpandTilde w) = defaultKeyPaths w.home := by
  simp only [defaultPrivateKeyFiles, defaultKeyPaths, List.map]
  rw [show "~/.ssh/id_rsa" = "~/" ++ ".ssh/id_rsa" by decide,
    show "~/.ssh/id_ecdsa" = "~/" ++ ".ssh/id_ecdsa" by decide,
    show "~/.ssh/id_ecdsa_sk" = "~/" ++ ".ssh/id_ecdsa_sk" by decide,
    show "~/.ssh/id_ed25519" = "~/" ++ ".ssh/id_ed25519" by decide,
    show "~/.ssh/id_ed25519_sk" = "~/" ++ ".ssh/id_ed25519_sk" by decide]
  simp only [expandTilde_of_tilde_slash]

/-- C8 (amended): the key locator goes through the five default paths in the fixed order
id_rsa, id_ecdsa, id_ecdsa_sk, id_ed25519, id_ed25519_sk under the `.ssh` directory of the home
directory and returns, with no error, the first one that exists and is not a directory, skipping
every earlier one that is missing or a directory; it returns the error "unable to find default
SSH private key" (and an empty path) if and only if none of the five exists as something other
than a directory. -/
theorem c8_first_existing_non_directory (w : World) :
    (∀ (pre : List String) (path : String) (post : List String),
      defaultKeyPaths w.home = pre ++ path :: post →
      (∀ q ∈ pre, ExistsNotDir w q = false) → ExistsNotDir w path = true →
      FindDefaultSSHPrivateKey w = (path, none)) ∧
    ((FindDefaultSSHPrivateKey w).2 ≠ none ↔
      ∀ q ∈ defaultKeyPaths w.home, ExistsNotDir w q = false) ∧
    ((∀ q ∈ defaultKeyPaths w.home, ExistsNotDir w q = false) →
      FindDefaultSSHPrivateKey w = ("", some "unable to find default SSH private key")) ∧
    (CleanAbsolute w.home →
      defaultKeyPaths w.home =
        [w.home ++ "/.ssh/id_rsa", w.home ++ "/.ssh/id_ecdsa", w.home ++ "/.ssh/id_ecdsa_sk",
          w.home ++ "/.ssh/id_ed25519", w.home ++ "/.ssh/id_ed25519_sk"]) := by
  have hnone : (∀ q ∈ defaultKeyPaths w.home, ExistsNotDir w q = false) →
      FindDefaultSSHPrivateKey w = ("", some "unable to find default SSH private key") := by
    intro h
    apply loop_none
    intro k hk
    apply h
    rw [← defaultKeyPaths_eq]
    exact List.mem_map_of_mem _ hk
  refine ⟨?_, ⟨?_, ?_⟩, hnone, ?_⟩
  · intro pre path post hdec hpre hpath
    rw [← defaultKeyPaths_eq] at hdec
    obtain ⟨kpre, krest, hks, hkpre, hkrest⟩ := List.map_eq_append_iff.mp hdec
    obtain ⟨k, kpost, hkrest2, hk, -⟩ := List.map_eq_cons_iff.mp hkrest
    unfold FindDefaultSSHPrivateKey
    rw [hks, hkrest2, ← hk]
    apply loop_first
    · intro q hq
      apply hpre
      rw [← hkpre]
      exact List.mem_map_of_mem _ hq
    · rw [hk]
      exact hpath
  · intro herr q hq
    rw [← defaultKeyPaths_eq] at hq
    obtain ⟨k, hk, rfl⟩ := List.mem_map.mp hq
    cases hex : ExistsNotDir w (ExpandTilde w k) with
    | false => rfl
    | true => exact absurd (loop_some_exists w _ k hk hex) herr
  · intro h
    rw [hnone h]
    simp
  · intro hh
    have hssh : ∀ name : List Char, PlainElem name = true →
        filepath.Join [w.home, ⟨".ssh/".data ++ name⟩] = w.home ++ ⟨"/.ssh/".data ++ name⟩ := by
      intro name hname
      rw [join_of_clean w.home ⟨".ssh/".data ++ name⟩ hh
        ⟨[".ssh".data, name], by simp, by
          intro e he
          rcases List.mem_cons.mp he with rfl | he
          · decide
          · rw [List.mem_singleton.mp he]
            exact hname, by simp [joinElems]⟩]
      apply String.ext
      simp
    exact congrArg₂ List.cons (hssh "id_rsa".data (by decide))
      (congrArg₂ List.cons (hssh "id_ecdsa".data (by decide))
      (congrArg₂ List.cons (hssh "id_ecdsa_sk".data (by decide))
      (congrArg₂ List.cons (hssh "id_ed25519".data (by decide))
      (congrArg₂ List.cons (hssh "id_ed25519_sk".data (by decide)) rfl))))

theorem c8_witness :
    FindDefaultSSHPrivateKey
      (sampleWorld [("/home/alice/.ssh/id_rsa", .dir), ("/home/alice/.ssh/id_ed25519", .regular),
        ("/home/alice/.ssh/id_ed25519_sk", .regular)] ⟨[]⟩) =
      ("/home/alice/.ssh/id_ed25519", none) :=
  (c8_first_existing_non_directory _).1
    ["/home/alice/.ssh/id_rsa", "/home/alice/.ssh/id_ecdsa", "/home/alice/.ssh/id_ecdsa_sk"]
    "/home/alice/.ssh/id_ed25519" ["/home/alice/.ssh/id_ed25519_sk"] (by decide)
    (by decide) (by decide)

/-- C8, as stated, fails: a named pipe at the id_rsa path exists, is not a regular file, and
is returned although a regular id_ecdsa key follows; and when that pipe is the only candidate
on disk, none of the five exists as a regular file, yet no error is returned. -/
theorem c8_counterexample :
    ExistsRegular (sampleWorld [("/home/alice/.ssh/id_rsa", .namedPipe),
      ("/home/alice/.ssh/id_ecdsa", .regular)] ⟨[]⟩) "/home/alice/.ssh/id_rsa" = false ∧
    ExistsRegular (sampleWorld [("/home/alice/.ssh/id_rsa", .namedPipe),
      ("/home/alice/.ssh/id_ecdsa", .regular)] ⟨[]⟩) "/home/alice/.ssh/id_ecdsa" = true ∧
    FindDefaultSSHPrivateKey
      (sampleWorld [("/home/alice/.ssh/id_rsa", .namedPipe),
        ("/home/alice/.ssh/id_ecdsa", .regular)] ⟨[]⟩) = ("/home/alice/.ssh/id_rsa", none) ∧
    (defaultKeyPaths "/home/alice").all (fun q =>
      !ExistsRegular (sampleWorld [("/home/alice/.ssh/id_rsa", .namedPipe)] ⟨[]⟩) q) = true ∧
    FindDefaultSSHPrivateKey (sampleWorld [("/home/alice/.ssh/id_rsa", .namedPipe)] ⟨[]⟩) =
      ("/home/alice/.ssh/id_rsa", none) := by
  decide

theorem located_exists (w : World) (path : String)
    (hf : FindDefaultSSHPrivateKey w = (path, none)) :
    path ∈ defaultKeyPaths w.home ∧ ExistsNotDir w path = true := by
  obtain ⟨k, hk, hpath, hex⟩ := loop_ok w _ path hf
  refine ⟨?_, hex⟩
  rw [← defaultKeyPaths_eq, hpath]
  exact List.mem_map_of_mem _ hk

theorem located_rooted (w : World) (path : String) (h : w.home.data.head? = some '/')
    (hmem : path ∈ defaultKeyPaths w.home) : strings.HasPrefix path "~/" = false := by
  apply hasPrefix_false_of_rooted
  simp only [defaultKeyPaths, List.mem_cons, List.mem_singleton, List.not_mem_nil,
    or_false] at hmem
  rcases hmem with rfl | rfl | rfl | rfl | rfl <;> exact join_absolute _ _ h

theorem locateKey_default (c : SSHCommand) (w : World) (key : String)
    (hk : c.PublicKey = "") (h : c.locateKey w = .ret key) :
    FindDefaultSSHPrivateKey w = (key, none) := by
  unfold SSHCommand.locateKey at h
  rw [if_pos hk] at h
  rcases hf : FindDefaultSSHPrivateKey w with ⟨path, err⟩
  rw [hf] at h
  cases err with
  | some e => simp at h
  | none =>
    have : path = key := by simpa using h
    rw [this]

theorem sshArgs_head (c : SSHCommand) (publicKey proxyCmd user instanceId : String) :
    ∃ rest, c.sshArgs publicKey proxyCmd user instanceId = "-i" :: publicKey :: rest := by
  unfold SSHCommand.sshArgs
  simp only
  split <;> exact ⟨_, rfl⟩

/-- C9 (amended): every ssh client the command starts is started with "-i" and a key path
whose public key file, the same path followed by ".pub", exists on disk.  When no key flag was
given, the key path was located automatically and the located path does not itself begin with
"~/" (it never does for an absolute home directory), the private key file at the key path exists
too and is not a directory.  Nothing is checked about the private key file of a key path given
with the key flag. -/
theorem c9_public_key_exists_before_launch (c : SSHCommand) (w : World) (args : List String)
    (h : args ∈ (c.Execute w).launched) :
    ∃ key rest, args = "-i" :: key :: rest ∧
      FileExists w (key ++ ".pub") = true ∧
      (c.PublicKey = "" → strings.HasPrefix (FindDefaultSSHPrivateKey w).1 "~/" = false →
        ExistsNotDir w key = true) ∧
      (c.PublicKey = "" → w.home.data.head? = some '/' → ExistsNotDir w key = true) := by
  obtain ⟨key, instanceId, hkey, ⟨fi, hstat⟩, hargs⟩ := execute_launched c w args h
  have hgen : c.PublicKey = "" → strings.HasPrefix (FindDefaultSSHPrivateKey w).1 "~/" = false →
      ExistsNotDir w (ExpandTilde w key) = true := by
    intro hk hp
    have hf := locateKey_default c w key hk hkey
    rw [hf] at hp
    rw [expandTilde_of_not_tilde_slash w key hp]
    exact (located_exists w key hf).2
  obtain ⟨rest, hrest⟩ := sshArgs_head c (ExpandTilde w key)
    (c.proxyCmd (ExpandTilde w key ++ ".pub") c.splitTarget.1 instanceId) c.splitTarget.1
    instanceId
  refine ⟨ExpandTilde w key, rest, ?_, ?_, hgen, ?_⟩
  · rw [hargs, hrest]
  · simp [FileExists, hstat]
  · intro hk hhome
    apply hgen hk
    have hf := locateKey_default c w key hk hkey
    rw [hf]
    exact located_rooted w key hhome (located_exists w key hf).1

theorem c9_witness :
    FileExists (sampleWorld [("/home/alice/.ssh/id_rsa", .regular),
      ("/home/alice/.ssh/id_rsa.pub", .regular)] ⟨[]⟩) "/home/alice/.ssh/id_rsa.pub" = true ∧
    ExistsNotDir (sampleWorld [("/home/alice/.ssh/id_rsa", .regular),
      ("/home/alice/.ssh/id_rsa.pub", .regular)] ⟨[]⟩) "/home/alice/.ssh/id_rsa" = true := by
  obtain ⟨key, rest, hargs, hpub, -, hpriv⟩ := c9_public_key_exists_before_launch
    ⟨"", "", "", 22, [], ⟨"i-0123456789abcdef0"⟩⟩
    (sampleWorld [("/home/alice/.ssh/id_rsa", .regular),
      ("/home/alice/.ssh/id_rsa.pub", .regular)] ⟨[]⟩)
    ["-i", "/home/alice/.ssh/id_rsa", "-o",
      "ProxyCommand=sh -c 'aws-ec2-ssh ssh-proxy --ssh-key /home/alice/.ssh/id_rsa.pub " ++
        "--username ec2-user --instance-id i-0123456789abcdef0'",
      "-p", "22", "ec2-user@i-0123456789abcdef0"]
    (by decide)
  have hk : key = "/home/alice/.ssh/id_rsa" := by
    simp only [List.cons.injEq] at hargs
    exact hargs.2.1.symm
  subst hk
  exact ⟨hpub, hpriv rfl (by decide)⟩

/-- C9, as stated, fails for a key given with the key flag: with only /tmp/key.pub on disk the
ssh client is started with the identity file /tmp/key, which does not exist. -/
theorem c9_counterexample :
    (SSHCommand.Execute ⟨"", "", "/tmp/key", 22, [], ⟨"i-0123456789abcdef0"⟩⟩
      (sampleWorld [("/tmp/key.pub", .regular)] ⟨[]⟩)).launched =
      [["-i", "/tmp/key", "-o",
        "ProxyCommand=sh -c 'aws-ec2-ssh ssh-proxy --ssh-key /tmp/key.pub " ++
          "--username ec2-user --instance-id i-0123456789abcdef0'",
        "-p", "22", "ec2-user@i-0123456789abcdef0"]] ∧
    FileExists (sampleWorld [("/tmp/key.pub", .regular)] ⟨[]⟩) "/tmp/key" = false := by
  decide

/-! ## The proxy command -/

theorem dropWhile_append_stop (p : Char → Bool) (rb : List Char) (z : Char) (rx : List Char)
    (hz : p z = false) :
    (rb ++ z :: rx).dropWhile p = rb.dropWhile p ++ z :: rx := by
  induction rb with
  | nil => simp [List.dropWhile, hz]
  | cons y rb ih =>
    cases hy : p y with
    | true => simp [List.dropWhile, hy, ih]
    | false => simp [List.dropWhile, hy]

theorem trimRight_append_stop (p : Char → Bool) (x : List Char) (z : Char) (b : List Char)
    (hz : p z = false) :
    ((x ++ z :: b).reverse.dropWhile p).reverse = x ++ z :: (b.reverse.dropWhile p).reverse := by
  have h : (x ++ z :: b).reverse = b.reverse ++ z :: x.reverse := by simp
  rw [h, dropWhile_append_stop p _ z _ hz]
  simp

theorem trimSpace_data_of_head (s : String) (c0 : Char) (rest : List Char)
    (hs : s.data = c0 :: rest) (h0 : unicode.IsSpace c0 = false) :
    (strings.TrimSpace s).data = (s.data.reverse.dropWhile unicode.IsSpace).reverse := by
  unfold strings.TrimSpace
  simp only
  rw [hs]
  simp [List.dropWhile, h0]

theorem trimSpace_within (s : String) : (strings.TrimSpace s).data <:+: s.data := by
  unfold strings.TrimSpace
  simp only
  exact ( List.rdropWhile_prefix unicode.IsSpace _).isInfix.trans
    (List.dropWhile_suffix unicode.IsSpace).isInfix

theorem no_space_occurrence (pat a b : List Char) (hpat : ' ' ∉ pat)
    (h : pat <:+: a ++ ' ' :: b) : pat <:+: a ∨ pat <:+: b := by
  obtain ⟨s, t, hst⟩ := h
  rcases List.append_eq_append_iff.mp hst with ⟨a', ha, -⟩ | ⟨c', hc, hb⟩
  · exact Or.inl ⟨s, a', ha.symm⟩
  · cases c' with
    | nil => exact Or.inl ⟨s, [], by simpa using hc⟩
    | cons x c'' =>
      have hx : x = ' ' := by
        have := congrArg List.head? hb
        simpa using this.symm
      have hb2 : b = c'' ++ t := by
        have := congrArg List.tail hb
        simpa using this
      subst hx
      rcases List.append_eq_append_iff.mp hc with ⟨a', -, hp⟩ | ⟨d, hs, hd⟩
      · exact absurd (by rw [hp]; simp) hpat
      · cases d with
        | nil => exact absurd (by rw [← List.nil_append pat, ← hd]; simp) hpat
        | cons y d' =>
          have hc2 : c'' = d' ++ pat := by
            have := congrArg List.tail hd
            simpa using this
          exact Or.inr ⟨d', t, by rw [hb2, hc2]⟩

theorem no_occurrence_join (pat a b : List Char) (hpat : ' ' ∉ pat)
    (ha : ¬ pat <:+: a) (hb : ¬ pat <:+: b) : ¬ pat <:+: a ++ ' ' :: b := by
  intro h
  rcases no_space_occurrence pat a b hpat h with h | h
  · exact ha h
  · exact hb h

theorem raw_data (c : SSHCommand) (k u i : String) :
    ("aws-ec2-ssh ssh-proxy --ssh-key " ++ k ++ " --username " ++ u ++
      " --instance-id " ++ i ++ " " ++ prepareArg "profile" c.Profile ++ " " ++
      prepareArg "region" c.Region).data =
    "aws-ec2-ssh".data ++ ' ' :: ("ssh-proxy".data ++ ' ' :: ("--ssh-key".data ++ ' ' ::
      (k.data ++ ' ' :: ("--username".data ++ ' ' :: (u.data ++ ' ' ::
      ("--instance-id".data ++ ' ' :: (i.data ++ ' ' ::
      ((prepareArg "profile" c.Profile).data ++ ' ' ::
        (prepareArg "region" c.Region).data)))))))) := by
  simp only [String.data_append, List.append_assoc]
  rfl

theorem data_concat_of_endsInSpace_false (s : String) (hne : s ≠ "")
    (h : EndsInSpace s = false) :
    ∃ (init : List Char) (z : Char), s.data = init ++ [z] ∧ unicode.IsSpace z = false := by
  have hd : s.data ≠ [] := by
    intro h0
    exact hne (String.ext h0)
  refine ⟨s.data.dropLast, s.data.getLast hd, (List.dropLast_append_getLast hd).symm, ?_⟩
  unfold EndsInSpace at h
  rw [List.getLast?_eq_getLast _ hd] at h
  exact h

theorem endsInSpace_append (a b : String) (hb : b ≠ "") :
    EndsInSpace (a ++ b) = EndsInSpace b := by
  have hd : b.data ≠ [] := by
    intro h0
    exact hb (String.ext h0)
  unfold EndsInSpace
  rw [String.data_append, List.getLast?_append_of_ne_nil _ hd]

theorem trimSpace_keeps (A F C : String) (c0 : Char) (rest : List Char)
    (hA : A.data = c0 :: rest) (h0 : unicode.IsSpace c0 = false)
    (hF : F ≠ "") (hFs : EndsInSpace F = false) :
    ∃ tail : List Char, (strings.TrimSpace (A ++ F ++ C)).data = A.data ++ F.data ++ tail := by
  obtain ⟨init, z, hFd, hz⟩ := data_concat_of_endsInSpace_false F hF hFs
  have hdata : (A ++ F ++ C).data = (A.data ++ init) ++ z :: C.data := by
    simp [hFd]
  rw [trimSpace_data_of_head (A ++ F ++ C) c0 (rest ++ F.data ++ C.data) (by simp [hA]) h0,
    hdata, trimRight_append_stop _ _ _ _ hz]
  exact ⟨(C.data.reverse.dropWhile unicode.IsSpace).reverse, by simp [hFd]⟩

theorem endsInSpace_trimSpace (s : String) : EndsInSpace (strings.TrimSpace s) = false := by
  unfold EndsInSpace strings.TrimSpace
  simp only [List.getLast?_reverse]
  have h := List.head?_dropWhile_not unicode.IsSpace
    (List.dropWhile unicode.IsSpace s.data).reverse
  split
  · rename_i c hc
    rw [hc] at h
    exact h
  · rfl

theorem prepareArg_no_occurrence (pat : List Char) (hpat : ' ' ∉ pat) (arg v : String)
    (hnil : ¬ pat <:+: []) (harg : ¬ pat <:+: ("--" ++ arg).data) (hv : ¬ pat <:+: v.data) :
    ¬ pat <:+: (prepareArg arg v).data := by
  unfold prepareArg
  split
  · exact hnil
  · have hd : (" --" ++ arg ++ " " ++ v).data =
        [] ++ ' ' :: (("--" ++ arg).data ++ ' ' :: v.data) := by
      simp only [String.data_append, List.append_assoc]
      rfl
    rw [hd]
    exact no_occurrence_join _ _ _ hpat hnil (no_occurrence_join _ _ _ hpat harg hv)

theorem proxyCmd_no_occurrence (c : SSHCommand) (k u i : String) (pat : List Char)
    (hpat : ' ' ∉ pat)
    (h1 : ¬ pat <:+: "aws-ec2-ssh".data) (h2 : ¬ pat <:+: "ssh-proxy".data)
    (h3 : ¬ pat <:+: "--ssh-key".data) (h4 : ¬ pat <:+: "--username".data)
    (h5 : ¬ pat <:+: "--instance-id".data)
    (hk : ¬ pat <:+: k.data) (hu : ¬ pat <:+: u.data) (hi : ¬ pat <:+: i.data)
    (hp : ¬ pat <:+: (prepareArg "profile" c.Profile).data)
    (hr : ¬ pat <:+: (prepareArg "region" c.Region).data) :
    ¬ pat <:+: (c.proxyCmd k u i).data := by
  intro h
  have h2' := h.trans (trimSpace_within _)
  rw [raw_data] at h2'
  revert h2'
  exact no_occurrence_join _ _ _ hpat h1 (no_occurrence_join _ _ _ hpat h2
    (no_occurrence_join _ _ _ hpat h3 (no_occurrence_join _ _ _ hpat hk
    (no_occurrence_join _ _ _ hpat h4 (no_occurrence_join _ _ _ hpat hu
    (no_occurrence_join _ _ _ hpat h5 (no_occurrence_join _ _ _ hpat hi
    (no_occurrence_join _ _ _ hpat hp hr))))))))

theorem append_ne_empty (a b : String) (hb : b ≠ "") : a ++ b ≠ "" := by
  intro h0
  apply hb
  have h := congrArg String.data h0
  rw [String.data_append] at h
  exact String.ext (List.append_eq_nil.mp h).2

theorem proxyBase_data (k u i : String) :
    (proxyBase k u i).data = 'a' :: ("ws-ec2-ssh ssh-proxy --ssh-key ".data ++ (k.data ++
      (" --username ".data ++ (u.data ++ (" --instance-id ".data ++ i.data))))) := by
  unfold proxyBase
  simp only [String.data_append, List.append_assoc]
  rfl

theorem no_space_step (pat a b s t : List Char) (hpat : ' ' ∉ pat) (ha : ¬ pat <:+: a)
    (h : s ++ pat ++ t = a ++ ' ' :: b) : ∃ s', s' ++ pat ++ t = b := by
  rcases List.append_eq_append_iff.mp h with ⟨a', ha', -⟩ | ⟨c', hc, hb⟩
  · exact absurd ⟨s, a', ha'.symm⟩ ha
  · cases c' with
    | nil => exact absurd ⟨s, [], by simpa using hc⟩ ha
    | cons x c'' =>
      have hx : x = ' ' := by
        have := congrArg List.head? hb
        simpa using this.symm
      have hb2 : b = c'' ++ t := by
        have := congrArg List.tail hb
        simpa using this
      subst hx
      rcases List.append_eq_append_iff.mp hc with ⟨a', -, hp⟩ | ⟨d, hs, hd⟩
      · exact absurd (by rw [hp]; simp) hpat
      · cases d with
        | nil => exact absurd (by rw [← List.nil_append pat, ← hd]; simp) hpat
        | cons y d' =>
          have hc2 : c'' = d' ++ pat := by
            have := congrArg List.tail hd
            simpa using this
          exact ⟨d', by rw [hb2, hc2]⟩

theorem dropWhile_append_all (p : Char → Bool) (ws rest : List Char)
    (hws : ∀ c ∈ ws, p c = true) : (ws ++ rest).dropWhile p = rest.dropWhile p := by
  induction ws with
  | nil => rfl
  | cons w ws ih =>
    have hw : p w = true := hws w (by simp)
    simp only [List.cons_append, List.dropWhile_cons, hw, if_true]
    exact ih (fun c hc => hws c (by simp [hc]))

theorem trimSpace_short (s : String) (c0 : Char) (rest X ws : List Char)
    (hs : s.data = c0 :: rest) (h0 : unicode.IsSpace c0 = false)
    (hX : s.data = X ++ ws) (hws : ∀ c ∈ ws, unicode.IsSpace c = true) :
    ∃ t2, (strings.TrimSpace s).data ++ t2 = X := by
  rw [trimSpace_data_of_head s c0 rest hs h0, hX, List.reverse_append,
    dropWhile_append_all _ _ _ (fun c hc => hws c (List.mem_reverse.mp hc))]
  exact ( List.rdropWhile_prefix unicode.IsSpace X)

theorem data_concat_of_endsInSpace_true (s : String) (h : EndsInSpace s = true) :
    ∃ (init : List Char) (z : Char), s.data = init ++ [z] ∧ unicode.IsSpace z = true := by
  unfold EndsInSpace at h
  have hd : s.data ≠ [] := by
    intro h0
    rw [h0] at h
    cases h
  refine ⟨s.data.dropLast, s.data.getLast hd, (List.dropLast_append_getLast hd).symm, ?_⟩
  rw [List.getLast?_eq_getLast _ hd] at h
  exact h

theorem occurrence_reaches_flags (c : SSHCommand) (k u i : String) (pat s t : List Char)
    (hpat : ' ' ∉ pat)
    (h1 : ¬ pat <:+: "aws-ec2-ssh".data) (h2 : ¬ pat <:+: "ssh-proxy".data)
    (h3 : ¬ pat <:+: "--ssh-key".data) (h4 : ¬ pat <:+: "--username".data)
    (h5 : ¬ pat <:+: "--instance-id".data)
    (hk : ¬ pat <:+: k.data) (hu : ¬ pat <:+: u.data) (hi : ¬ pat <:+: i.data)
    (h : s ++ pat ++ t =
      ("aws-ec2-ssh ssh-proxy --ssh-key " ++ k ++ " --username " ++ u ++
        " --instance-id " ++ i ++ " " ++ prepareArg "profile" c.Profile ++ " " ++
        prepareArg "region" c.Region).data) :
    ∃ s', s' ++ pat ++ t =
      (prepareArg "profile" c.Profile).data ++ ' ' :: (prepareArg "region" c.Region).data := by
  rw [raw_data] at h
  obtain ⟨s1, h⟩ := no_space_step _ _ _ _ _ hpat h1 h
  obtain ⟨s2, h⟩ := no_space_step _ _ _ _ _ hpat h2 h
  obtain ⟨s3, h⟩ := no_space_step _ _ _ _ _ hpat h3 h
  obtain ⟨s4, h⟩ := no_space_step _ _ _ _ _ hpat hk h
  obtain ⟨s5, h⟩ := no_space_step _ _ _ _ _ hpat h4 h
  obtain ⟨s6, h⟩ := no_space_step _ _ _ _ _ hpat hu h
  obtain ⟨s7, h⟩ := no_space_step _ _ _ _ _ hpat h5 h
  obtain ⟨s8, h⟩ := no_space_step _ _ _ _ _ hpat hi h
  exact ⟨s8, h⟩

theorem raw_head (c : SSHCommand) (k u i : String) :
    ∃ rest, ("aws-ec2-ssh ssh-proxy --ssh-key " ++ k ++ " --username " ++ u ++
        " --instance-id " ++ i ++ " " ++ prepareArg "profile" c.Profile ++ " " ++
        prepareArg "region" c.Region).data = 'a' :: rest := by
  rw [raw_data]
  exact ⟨_, rfl⟩

theorem profile_fragment_trimmed (c : SSHCommand) (k u i : String)
    (hP : c.Profile ≠ "") (hPs : EndsInSpace c.Profile = true) (hR : c.Region = "")
    (hk : ¬ "--profile".data <:+: k.data) (hu : ¬ "--profile".data <:+: u.data)
    (hi : ¬ "--profile".data <:+: i.data) :
    ¬ ("--profile " ++ c.Profile).data <:+: (c.proxyCmd k u i).data := by
  rintro ⟨s, t, hst⟩
  obtain ⟨init, z, hPd, hz⟩ := data_concat_of_endsInSpace_true c.Profile hPs
  obtain ⟨rest, hhead⟩ := raw_head c k u i
  have hflags : (prepareArg "profile" c.Profile).data ++ ' ' ::
      (prepareArg "region" c.Region).data =
      [] ++ ' ' :: (("--profile".data ++ ' ' :: c.Profile.data) ++ [' ']) := by
    simp [prepareArg, hP, hR]
  -- the raw string ends in the last character of the profile and a space
  have hraw : ("aws-ec2-ssh ssh-proxy --ssh-key " ++ k ++ " --username " ++ u ++
        " --instance-id " ++ i ++ " " ++ prepareArg "profile" c.Profile ++ " " ++
        prepareArg "region" c.Region).data =
      (("aws-ec2-ssh ssh-proxy --ssh-key " ++ k ++ " --username " ++ u ++
        " --instance-id " ++ i ++ " " ++ " --profile ").data ++ init) ++ [z, ' '] := by
    simp [prepareArg, hP, hR, hPd]
  obtain ⟨t2, ht2⟩ := trimSpace_short _ 'a' rest _ [z, ' '] hhead (by decide) hraw (by
    intro x hx
    simp only [List.mem_cons, List.mem_singleton, List.not_mem_nil, or_false] at hx
    rcases hx with rfl | rfl
    · exact hz
    · decide)
  have hocc : s ++ "--profile".data ++ ((' ' :: c.Profile.data) ++ t ++ t2 ++ [z, ' ']) =
      ("aws-ec2-ssh ssh-proxy --ssh-key " ++ k ++ " --username " ++ u ++
        " --instance-id " ++ i ++ " " ++ prepareArg "profile" c.Profile ++ " " ++
        prepareArg "region" c.Region).data := by
    rw [hraw, ← ht2]
    unfold SSHCommand.proxyCmd at hst
    rw [← hst]
    simp
  obtain ⟨s1, h1⟩ := occurrence_reaches_flags c k u i _ _ _ (by decide) (by decide) (by decide)
    (by decide) (by decide) (by decide) hk hu hi hocc
  rw [hflags] at h1
  obtain ⟨s2, h2⟩ := no_space_step _ _ _ _ _ (by decide) (by decide) h1
  have hlen := congrArg List.length h2
  simp at hlen
  omega

theorem region_fragment_trimmed (c : SSHCommand) (k u i : String)
    (hR : c.Region ≠ "") (hRs : EndsInSpace c.Region = true)
    (hk : ¬ "--region".data <:+: k.data) (hu : ¬ "--region".data <:+: u.data)
    (hi : ¬ "--region".data <:+: i.data) (hp : ¬ "--region".data <:+: c.Profile.data) :
    ¬ ("--region " ++ c.Region).data <:+: (c.proxyCmd k u i).data := by
  rintro ⟨s, t, hst⟩
  obtain ⟨init, z, hRd, hz⟩ := data_concat_of_endsInSpace_true c.Region hRs
  obtain ⟨rest, hhead⟩ := raw_head c k u i
  have hflag : (prepareArg "region" c.Region).data =
      [] ++ ' ' :: ("--region".data ++ ' ' :: c.Region.data) := by
    simp [prepareArg, hR]
  -- the raw string ends in the last character of the region
  have hraw : ("aws-ec2-ssh ssh-proxy --ssh-key " ++ k ++ " --username " ++ u ++
        " --instance-id " ++ i ++ " " ++ prepareArg "profile" c.Profile ++ " " ++
        prepareArg "region" c.Region).data =
      (("aws-ec2-ssh ssh-proxy --ssh-key " ++ k ++ " --username " ++ u ++
        " --instance-id " ++ i ++ " " ++ prepareArg "profile" c.Profile ++ " " ++
        " --region ").data ++ init) ++ [z] := by
    simp [prepareArg, hR, hRd]
  obtain ⟨t2, ht2⟩ := trimSpace_short _ 'a' rest _ [z] hhead (by decide) hraw (by
    intro x hx
    simp only [List.mem_singleton] at hx
    rw [hx]
    exact hz)
  have hocc : s ++ "--region".data ++ ((' ' :: c.Region.data) ++ t ++ t2 ++ [z]) =
      ("aws-ec2-ssh ssh-proxy --ssh-key " ++ k ++ " --username " ++ u ++
        " --instance-id " ++ i ++ " " ++ prepareArg "profile" c.Profile ++ " " ++
        prepareArg "region" c.Region).data := by
    rw [hraw, ← ht2]
    unfold SSHCommand.proxyCmd at hst
    rw [← hst]
    simp
  obtain ⟨s1, h1⟩ := occurrence_reaches_flags c k u i _ _ _ (by decide) (by decide) (by decide)
    (by decide) (by decide) (by decide) hk hu hi hocc
  obtain ⟨s2, h2⟩ := no_space_step _ _ _ _ _ (by decide)
    (prepareArg_no_occurrence _ (by decide) _ _ (by decide) (by decide) hp) h1
  rw [hflag] at h2
  obtain ⟨s3, h3⟩ := no_space_step _ _ _ _ _ (by decide) (by decide) h2
  have hlen := congrArg List.length h3
  simp at hlen
  omega

theorem trimRight_split (p : Char → Bool) (l : List Char) :
    ∃ ws, (∀ c ∈ ws, p c = true) ∧ (l.reverse.dropWhile p).reverse ++ ws = l := by
  refine ⟨(l.reverse.takeWhile p).reverse, ?_, ?_⟩
  · intro c hc
    exact (List.mem_takeWhile_imp (List.mem_reverse.mp hc))
  · rw [← List.reverse_append, List.takeWhile_append_dropWhile, List.reverse_reverse]

/-- C6 (amended): in the proxy command built from a key path, a user and an instance ID, a
non-empty profile appears as "--profile " followed by the profile whenever the profile does not
end in white space or a non-empty region follows it; when the profile ends in white space and
the region is empty, that white space is trimmed away and the fragment occurs nowhere in the
command, unless the text "--profile" occurs in the key path, the user or the instance ID.  A
non-empty region appears as "--region " followed by the region whenever the region does not
end in white space; when it does, the fragment occurs nowhere in the command, unless the text
"--region" occurs in the key path, the user, the instance ID or the profile.  With an empty
profile the text "--profile" occurs nowhere in the command unless it occurs in the key path, the
user, the instance ID or the region; likewise "--region" with an empty region.  With both empty
the command is the base command without its trailing white space, so with an instance ID that
is non-empty and does not end in white space it is the base command, which ends right after
the instance ID.  In every case the command is the base command, a space, " --profile " and the
profile when the profile is non-empty, a space, " --region " and the region when the region is
non-empty, all without the trailing white space: the command never ends in white space. -/
theorem c6_profile_and_region_fragments (c : SSHCommand)
    (publicKeyPath user instanceId : String) :
    (c.Profile ≠ "" → EndsInSpace c.Profile = false ∨ c.Region ≠ "" →
      ("--profile " ++ c.Profile).data <:+: (c.proxyCmd publicKeyPath user instanceId).data) ∧
    (c.Profile ≠ "" → EndsInSpace c.Profile = true → c.Region = "" →
      (∀ s ∈ [publicKeyPath, user, instanceId], ¬ "--profile".data <:+: s.data) →
      ¬ ("--profile " ++ c.Profile).data <:+: (c.proxyCmd publicKeyPath user instanceId).data) ∧
    (c.Region ≠ "" → EndsInSpace c.Region = false →
      ("--region " ++ c.Region).data <:+: (c.proxyCmd publicKeyPath user instanceId).data) ∧
    (c.Region ≠ "" → EndsInSpace c.Region = true →
      (∀ s ∈ [publicKeyPath, user, instanceId, c.Profile], ¬ "--region".data <:+: s.data) →
      ¬ ("--region " ++ c.Region).data <:+: (c.proxyCmd publicKeyPath user instanceId).data) ∧
    (c.Profile = "" →
      (∀ s ∈ [publicKeyPath, user, instanceId, c.Region], ¬ "--profile".data <:+: s.data) →
      ¬ "--profile".data <:+: (c.proxyCmd publicKeyPath user instanceId).data) ∧
    (c.Region = "" →
      (∀ s ∈ [publicKeyPath, user, instanceId, c.Profile], ¬ "--region".data <:+: s.data) →
      ¬ "--region".data <:+: (c.proxyCmd publicKeyPath user instanceId).data) ∧
    (c.Profile = "" → c.Region = "" →
      ∃ ws : List Char, (∀ x ∈ ws, unicode.IsSpace x = true) ∧
        (c.proxyCmd publicKeyPath user instanceId).data ++ ws =
          (proxyBase publicKeyPath user instanceId).data) ∧
    (c.Profile = "" → c.Region = "" → instanceId ≠ "" → EndsInSpace instanceId = false →
      c.proxyCmd publicKeyPath user instanceId = proxyBase publicKeyPath user instanceId) ∧
    (∃ ws : List Char, (∀ x ∈ ws, unicode.IsSpace x = true) ∧
      (c.proxyCmd publicKeyPath user instanceId).data ++ ws =
        (proxyBase publicKeyPath user instanceId ++ " " ++
          (if c.Profile = "" then "" else " --profile " ++ c.Profile) ++ " " ++
          (if c.Region = "" then "" else " --region " ++ c.Region)).data) ∧
    EndsInSpace (c.proxyCmd publicKeyPath user instanceId) = false := by
  have hbrest := proxyBase_data publicKeyPath user instanceId
  refine ⟨?_, ?_, ?_, ?_, ?_, ?_, ?_, ?_, ?_, endsInSpace_trimSpace _⟩
  · intro hP hor
    rcases hor with hPs | hR
    · have hraw : "aws-ec2-ssh ssh-proxy --ssh-key " ++ publicKeyPath ++ " --username " ++
          user ++ " --instance-id " ++ instanceId ++ " " ++ prepareArg "profile" c.Profile ++
          " " ++ prepareArg "region" c.Region =
          (proxyBase publicKeyPath user instanceId ++ "  ") ++ ("--profile " ++ c.Profile) ++
            (" " ++ prepareArg "region" c.Region) := by
        apply String.ext
        simp [prepareArg, hP, proxyBase]
      obtain ⟨tail, ht⟩ := trimSpace_keeps (proxyBase publicKeyPath user instanceId ++ "  ")
        ("--profile " ++ c.Profile) (" " ++ prepareArg "region" c.Region) 'a' _
        (by rw [String.data_append, hbrest, List.cons_append]) (by decide)
        (append_ne_empty _ _ hP)
        (by rw [endsInSpace_append _ _ hP]; exact hPs)
      unfold SSHCommand.proxyCmd
      rw [hraw, ht]
      exact ⟨_, tail, rfl⟩
    · -- the region flag follows the profile, so the trimming stops after the profile
      have hraw : "aws-ec2-ssh ssh-proxy --ssh-key " ++ publicKeyPath ++ " --username " ++
          user ++ " --instance-id " ++ instanceId ++ " " ++ prepareArg "profile" c.Profile ++
          " " ++ prepareArg "region" c.Region =
          (proxyBase publicKeyPath user instanceId ++ "  ") ++
            ("--profile " ++ c.Profile ++ "  --region") ++ (" " ++ c.Region) := by
        apply String.ext
        simp [prepareArg, hP, hR, proxyBase]
      obtain ⟨tail, ht⟩ := trimSpace_keeps (proxyBase publicKeyPath user instanceId ++ "  ")
        ("--profile " ++ c.Profile ++ "  --region") (" " ++ c.Region) 'a' _
        (by rw [String.data_append, hbrest, List.cons_append]) (by decide)
        (append_ne_empty _ _ (by decide))
        (by rw [endsInSpace_append _ _ (by decide)]; decide)
      unfold SSHCommand.proxyCmd
      rw [hraw, ht]
      exact ⟨(proxyBase publicKeyPath user instanceId ++ "  ").data,
        "  --region".data ++ tail, by simp⟩
  · intro hP hPs hR hclean
    exact profile_fragment_trimmed c _ _ _ hP hPs hR
      (hclean _ (by simp)) (hclean _ (by simp)) (hclean _ (by simp))
  · intro hR hRs
    have hraw : "aws-ec2-ssh ssh-proxy --ssh-key " ++ publicKeyPath ++ " --username " ++ user ++
        " --instance-id " ++ instanceId ++ " " ++ prepareArg "profile" c.Profile ++ " " ++
        prepareArg "region" c.Region =
        (proxyBase publicKeyPath user instanceId ++ (" " ++ prepareArg "profile" c.Profile ++
          "  ")) ++ ("--region " ++ c.Region) ++ "" := by
      apply String.ext
      simp [prepareArg, hR, proxyBase]
    obtain ⟨tail, ht⟩ := trimSpace_keeps
      (proxyBase publicKeyPath user instanceId ++
        (" " ++ prepareArg "profile" c.Profile ++ "  "))
      ("--region " ++ c.Region) "" 'a' _
      (by rw [String.data_append, hbrest, List.cons_append]) (by decide)
      (append_ne_empty _ _ hR)
      (by rw [endsInSpace_append _ _ hR]; exact hRs)
    unfold SSHCommand.proxyCmd
    rw [hraw, ht]
    exact ⟨_, tail, rfl⟩
  · intro hR hRs hclean
    exact region_fragment_trimmed c _ _ _ hR hRs
      (hclean _ (by simp)) (hclean _ (by simp)) (hclean _ (by simp)) (hclean _ (by simp))
  · intro hP hclean
    apply proxyCmd_no_occurrence c _ _ _ _ (by decide) (by decide) (by decide) (by decide)
      (by decide) (by decide)
      (hclean _ (by simp)) (hclean _ (by simp)) (hclean _ (by simp))
    · rw [hP]
      decide
    · exact prepareArg_no_occurrence _ (by decide) _ _ (by decide) (by decide)
        (hclean _ (by simp))
  · intro hR hclean
    apply proxyCmd_no_occurrence c _ _ _ _ (by decide) (by decide) (by decide) (by decide)
      (by decide) (by decide)
      (hclean _ (by simp)) (hclean _ (by simp)) (hclean _ (by simp))
    · exact prepareArg_no_occurrence _ (by decide) _ _ (by decide) (by decide)
        (hclean _ (by simp))
    · rw [hR]
      decide
  · intro hP hR
    have hraw : ("aws-ec2-ssh ssh-proxy --ssh-key " ++ publicKeyPath ++ " --username " ++
        user ++ " --instance-id " ++ instanceId ++ " " ++ prepareArg "profile" c.Profile ++
        " " ++ prepareArg "region" c.Region).data =
        (proxyBase publicKeyPath user instanceId).data ++ [' ', ' '] := by
      simp [prepareArg, hP, hR, proxyBase]
    obtain ⟨rest, hhead⟩ := raw_head c publicKeyPath user instanceId
    obtain ⟨ws, hws, hsplit⟩ := trimRight_split unicode.IsSpace
      (proxyBase publicKeyPath user instanceId).data
    refine ⟨ws, hws, ?_⟩
    unfold SSHCommand.proxyCmd
    rw [trimSpace_data_of_head _ 'a' rest hhead (by decide), hraw, List.reverse_append,
      dropWhile_append_all _ _ _ (by decide)]
    exact hsplit
  · intro hP hR hi his
    have hraw : "aws-ec2-ssh ssh-proxy --ssh-key " ++ publicKeyPath ++ " --username " ++ user ++
        " --instance-id " ++ instanceId ++ " " ++ prepareArg "profile" c.Profile ++ " " ++
        prepareArg "region" c.Region =
        proxyBase publicKeyPath user instanceId ++ "  " := by
      apply String.ext
      simp [prepareArg, hP, hR, proxyBase]
    obtain ⟨init, z, hid, hz⟩ := data_concat_of_endsInSpace_false instanceId hi his
    unfold SSHCommand.proxyCmd
    apply String.ext
    rw [hraw, trimSpace_data_of_head _ 'a' _
      (by rw [String.data_append, hbrest, List.cons_append]) (by decide)]
    have hsplit : (proxyBase publicKeyPath user instanceId ++ "  ").data =
        ('a' :: ("ws-ec2-ssh ssh-proxy --ssh-key ".data ++ (publicKeyPath.data ++
          (" --username ".data ++ (user.data ++ (" --instance-id ".data ++ init)))))) ++
          z :: "  ".data := by
      rw [String.data_append, hbrest, hid]
      simp
    rw [hsplit, trimRight_append_stop _ _ _ _ hz, hbrest, hid]
    simp
    decide
  · have hraw : proxyBase publicKeyPath user instanceId ++ " " ++
        (if c.Profile = "" then "" else " --profile " ++ c.Profile) ++ " " ++
        (if c.Region = "" then "" else " --region " ++ c.Region) =
        "aws-ec2-ssh ssh-proxy --ssh-key " ++ publicKeyPath ++ " --username " ++ user ++
        " --instance-id " ++ instanceId ++ " " ++ prepareArg "profile" c.Profile ++ " " ++
        prepareArg "region" c.Region := by
      apply String.ext
      by_cases hP : c.Profile = "" <;> by_cases hR : c.Region = "" <;>
        simp [prepareArg, hP, hR, proxyBase]
    obtain ⟨rest, hhead⟩ := raw_head c publicKeyPath user instanceId
    rw [hraw]
    unfold SSHCommand.proxyCmd
    rw [trimSpace_data_of_head _ 'a' rest hhead (by decide)]
    exact trimRight_split unicode.IsSpace _

set_option maxRecDepth 100000 in
theorem c6_witness :
    ("--profile " ++ "prod").data <:+:
      (SSHCommand.proxyCmd ⟨"prod", "us-east-1", "", 22, [], ⟨"i-0123456789abcdef0"⟩⟩
        "/home/alice/.ssh/id_rsa.pub" "ec2-user" "i-0123456789abcdef0").data ∧
    ("--profile " ++ "prod ").data <:+:
      (SSHCommand.proxyCmd ⟨"prod ", "us-east-1", "", 22, [], ⟨"i-0123456789abcdef0"⟩⟩
        "/home/alice/.ssh/id_rsa.pub" "ec2-user" "i-0123456789abcdef0").data ∧
    ¬ ("--profile " ++ "prod ").data <:+:
      (SSHCommand.proxyCmd ⟨"prod ", "", "", 22, [], ⟨"i-0123456789abcdef0"⟩⟩
        "/home/alice/.ssh/id_rsa.pub" "ec2-user" "i-0123456789abcdef0").data ∧
    ("--region " ++ "us-east-1").data <:+:
      (SSHCommand.proxyCmd ⟨"prod", "us-east-1", "", 22, [], ⟨"i-0123456789abcdef0"⟩⟩
        "/home/alice/.ssh/id_rsa.pub" "ec2-user" "i-0123456789abcdef0").data ∧
    ¬ ("--region " ++ "us-east-1 ").data <:+:
      (SSHCommand.proxyCmd ⟨"prod", "us-east-1 ", "", 22, [], ⟨"i-0123456789abcdef0"⟩⟩
        "/home/alice/.ssh/id_rsa.pub" "ec2-user" "i-0123456789abcdef0").data ∧
    ¬ "--profile".data <:+:
      (SSHCommand.proxyCmd ⟨"", "us-east-1", "", 22, [], ⟨"i-0123456789abcdef0"⟩⟩
        "/home/alice/.ssh/id_rsa.pub" "ec2-user" "i-0123456789abcdef0").data ∧
    ¬ "--region".data <:+:
      (SSHCommand.proxyCmd ⟨"prod", "", "", 22, [], ⟨"i-0123456789abcdef0"⟩⟩
        "/home/alice/.ssh/id_rsa.pub" "ec2-user" "i-0123456789abcdef0").data ∧
    (∃ ws : List Char, (∀ x ∈ ws, unicode.IsSpace x = true) ∧
      (SSHCommand.proxyCmd ⟨"", "", "", 22, [], ⟨"i-0123456789abcdef0 "⟩⟩
        "/home/alice/.ssh/id_rsa.pub" "ec2-user" "i-0123456789abcdef0 ").data ++ ws =
        (proxyBase "/home/alice/.ssh/id_rsa.pub" "ec2-user" "i-0123456789abcdef0 ").data) ∧
    SSHCommand.proxyCmd ⟨"", "", "", 22, [], ⟨"i-0123456789abcdef0"⟩⟩
      "/home/alice/.ssh/id_rsa.pub" "ec2-user" "i-0123456789abcdef0" =
      proxyBase "/home/alice/.ssh/id_rsa.pub" "ec2-user" "i-0123456789abcdef0" :=
  ⟨(c6_profile_and_region_fragments
      ⟨"prod", "us-east-1", "", 22, [], ⟨"i-0123456789abcdef0"⟩⟩
      "/home/alice/.ssh/id_rsa.pub" "ec2-user" "i-0123456789abcdef0").1
      (by decide) (Or.inl (by decide)),
   (c6_profile_and_region_fragments
      ⟨"prod ", "us-east-1", "", 22, [], ⟨"i-0123456789abcdef0"⟩⟩
      "/home/alice/.ssh/id_rsa.pub" "ec2-user" "i-0123456789abcdef0").1
      (by decide) (Or.inr (by decide)),
   (c6_profile_and_region_fragments
      ⟨"prod ", "", "", 22, [], ⟨"i-0123456789abcdef0"⟩⟩
      "/home/alice/.ssh/id_rsa.pub" "ec2-user" "i-0123456789abcdef0").2.1
      (by decide) (by decide) rfl (by decide),
   (c6_profile_and_region_fragments
      ⟨"prod", "us-east-1", "", 22, [], ⟨"i-0123456789abcdef0"⟩⟩
      "/home/alice/.ssh/id_rsa.pub" "ec2-user" "i-0123456789abcdef0").2.2.1
      (by decide) (by decide),
   (c6_profile_and_region_fragments
      ⟨"prod", "us-east-1 ", "", 22, [], ⟨"i-0123456789abcdef0"⟩⟩
      "/home/alice/.ssh/id_rsa.pub" "ec2-user" "i-0123456789abcdef0").2.2.2.1
      (by decide) (by decide) (by decide),
   (c6_profile_and_region_fragments
      ⟨"", "us-east-1", "", 22, [], ⟨"i-0123456789abcdef0"⟩⟩
      "/home/alice/.ssh/id_rsa.pub" "ec2-user" "i-0123456789abcdef0").2.2.2.2.1
      rfl (by decide),
   (c6_profile_and_region_fragments
      ⟨"prod", "", "", 22, [], ⟨"i-0123456789abcdef0"⟩⟩
      "/home/alice/.ssh/id_rsa.pub" "ec2-user" "i-0123456789abcdef0").2.2.2.2.2.1
      rfl (by decide),
   (c6_profile_and_region_fragments
      ⟨"", "", "", 22, [], ⟨"i-0123456789abcdef0 "⟩⟩
      "/home/alice/.ssh/id_rsa.pub" "ec2-user" "i-0123456789abcdef0 ").2.2.2.2.2.2.1
      rfl rfl,
   (c6_profile_and_region_fragments
      ⟨"", "", "", 22, [], ⟨"i-0123456789abcdef0"⟩⟩
      "/home/alice/.ssh/id_rsa.pub" "ec2-user" "i-0123456789abcdef0").2.2.2.2.2.2.2.1
      rfl rfl (by decide) (by decide)⟩

set_option maxRecDepth 100000 in
/-- C6, as stated, fails in both directions: the profile " " is non-empty, but the white
space is trimmed away and the command ends in a bare "--profile", so it does not contain
"--profile " followed by the profile; and with an empty profile and the user "--profile x" the
command contains the text "--profile " although no profile was given. -/
theorem c6_counterexample :
    (" " : String) ≠ "" ∧
    SSHCommand.proxyCmd ⟨" ", "", "", 22, [], ⟨"i-0123456789abcdef0"⟩⟩
      "/home/alice/.ssh/id_rsa.pub" "ec2-user" "i-0123456789abcdef0" =
      "aws-ec2-ssh ssh-proxy --ssh-key /home/alice/.ssh/id_rsa.pub --username ec2-user " ++
        "--instance-id i-0123456789abcdef0  --profile" ∧
    ¬ ("--profile " ++ " ").data <:+:
      (SSHCommand.proxyCmd ⟨" ", "", "", 22, [], ⟨"i-0123456789abcdef0"⟩⟩
        "/home/alice/.ssh/id_rsa.pub" "ec2-user" "i-0123456789abcdef0").data ∧
    ("--profile " ++ "").data <:+:
      (SSHCommand.proxyCmd ⟨"", "", "", 22, [], ⟨"--profile x@i-0123456789abcdef0"⟩⟩
        "/home/alice/.ssh/id_rsa.pub" "--profile x" "i-0123456789abcdef0").data :=
  ⟨by decide, by decide, by decide, by decide⟩

/-! ## The legacy command and the subcommand -/

theorem expandTilde_eq (w : World) (path : String) : expandTilde w path = ExpandTilde w path :=
  rfl

theorem legacy_loop_agree (w : World) (ks : List String) :
    (∃ path, findDefaultSSHPrivateKey.loop w ks = (path, none) ∧
      FindDefaultSSHPrivateKey.loop w ks = (path, none)) ∨
    (∃ e1 e2, findDefaultSSHPrivateKey.loop w ks = ("", some e1) ∧
      FindDefaultSSHPrivateKey.loop w ks = ("", some e2)) := by
  induction ks with
  | nil => exact Or.inr ⟨_, _, rfl, rfl⟩
  | cons k rest ih =>
    unfold findDefaultSSHPrivateKey.loop FindDefaultSSHPrivateKey.loop
    simp only [expandTilde_eq]
    cases hs : w.Stat (ExpandTilde w k) with
    | error e => exact ih
    | ok fi =>
      simp only
      cases hd : fi.IsDir with
      | true => exact ih
      | false => exact Or.inl ⟨_, rfl, rfl⟩

theorem locateKey_agree (opts : Options) (w : World) :
    main.locateKey opts w = opts.flags.locateKey w := by
  unfold main.locateKey SSHCommand.locateKey findDefaultSSHPrivateKey FindDefaultSSHPrivateKey
  have hk : opts.flags.PublicKey = opts.PublicKey := rfl
  rw [hk]
  by_cases h : opts.PublicKey = ""
  · simp only [h, if_true]
    rcases legacy_loop_agree w defaultPrivateKeyFiles with ⟨path, h1, h2⟩ | ⟨e1, e2, h1, h2⟩
    · have h1' : findDefaultSSHPrivateKey.loop w main.defaultPrivateKeyFiles = (path, none) := h1
      rw [h1', h2]
    · have h1' : findDefaultSSHPrivateKey.loop w main.defaultPrivateKeyFiles = ("", some e1) :=
        h1
      rw [h1', h2]
  · simp only [h, if_false]

theorem splitTarget_agree (opts : Options) : main.splitTarget opts = opts.flags.splitTarget :=
  rfl

theorem resolve_agree (w : World) (name profile region : String) :
    (∃ id, resolveNameTagToInstanceID w name profile region = .ret (id, none) ∧
      ResolveNameTagToInstanceID w name profile region = .ret (id, none)) ∨
    ((resolveNameTagToInstanceID w name profile region).failed = true ∨
        ∃ id e, resolveNameTagToInstanceID w name profile region = .ret (id, some e)) ∧
      ((ResolveNameTagToInstanceID w name profile region).failed = true ∨
        ∃ id e, ResolveNameTagToInstanceID w name profile region = .ret (id, some e)) := by
  unfold resolveNameTagToInstanceID ResolveNameTagToInstanceID LoadAwsDefaultConfig
  cases hc : w.LoadDefaultConfig profile region with
  | some err => exact Or.inr ⟨Or.inr ⟨_, _, rfl⟩, Or.inl rfl⟩
  | none =>
    simp only
    cases hd : w.DescribeInstances profile region name with
    | error err => exact Or.inr ⟨Or.inl rfl, Or.inl rfl⟩
    | ok out =>
      simp only [resolveMatches]
      by_cases h0 : (collectMatches out).length = 0
      · simp only [h0, if_true]
        exact Or.inr ⟨Or.inr ⟨_, _, rfl⟩, Or.inr ⟨_, _, rfl⟩⟩
      · simp only [h0, if_false]
        by_cases h1 : (collectMatches out).length > 1
        · simp only [h1, if_true]
          exact Or.inr ⟨Or.inr ⟨_, _, rfl⟩, Or.inr ⟨_, _, rfl⟩⟩
        · simp only [h1, if_false]
          exact Or.inl ⟨_, rfl, rfl⟩

theorem sshArgs_same_except (c : SSHCommand) (k pa pb u i : String) :
    SameExceptProxyCommand (c.sshArgs k pa u i) (c.sshArgs k pb u i) := by
  unfold SSHCommand.sshArgs
  by_cases hv : c.Verbose.length > 0
  · simp only [hv, if_true]
    refine ⟨by simp, ?_, pa, pb, by simp, by simp⟩
    intro n hn
    rcases n with _ | _ | _ | _ | n
    · simp
    · simp
    · simp
    · exact absurd rfl hn
    · simp
  · simp only [hv, if_false]
    refine ⟨by simp, ?_, pa, pb, by simp, by simp⟩
    intro n hn
    rcases n with _ | _ | _ | _ | n
    · simp
    · simp
    · simp
    · exact absurd rfl hn
    · simp

theorem agree_failed (w : World) (calls : List (String × String × String)) (m1 m2 : String) :
    Agree w ⟨calls, [], .fatal m1⟩ ⟨calls, [], .fatal m2⟩ := by
  unfold Agree
  refine ⟨rfl, List.Forall₂.nil, fun _ => ⟨rfl, rfl⟩, ?_, ?_⟩
  · intro a ha
    cases ha
  · intro b hb
    cases hb

theorem agree_launched (w : World) (calls : List (String × String × String))
    (a b : List String) (hab : SameExceptProxyCommand a b) :
    Agree w
      (match w.Run a with
        | some err => ⟨calls, [a], .fatal ("ssh failed: " ++ err)⟩
        | none => ⟨calls, [a], .ret none⟩)
      (match w.Run b with
        | some err => ⟨calls, [b], .fatal ("ssh failed: " ++ err)⟩
        | none => ⟨calls, [b], .ret none⟩) := by
  unfold Agree
  cases ha : w.Run a <;> cases hb : w.Run b <;> dsimp only
  all_goals refine ⟨rfl, List.Forall₂.cons hab List.Forall₂.nil, ?_, ?_, ?_⟩
  all_goals first
    | (intro h; exact absurd h (List.cons_ne_nil _ _))
    | (intro x hx; rw [List.mem_singleton.mp hx]; simp [Proc.failed, ha, hb])

theorem connect_agree (opts : Options) (w : World) (calls : List (String × String × String))
    (k u i : String) :
    Agree w (main.connect opts w calls k u i) (opts.flags.connect w calls k u i) := by
  unfold main.connect SSHCommand.connect
  dsimp only
  cases hs : w.Stat (k ++ ".pub") with
  | error e => exact agree_failed w calls _ _
  | ok fi => exact agree_launched w calls _ _ (sshArgs_same_except opts.flags k _ _ u i)

theorem body_agree (opts : Options) (w : World) :
    Agree w (main.body opts w) (opts.flags.Execute w) := by
  unfold main.body SSHCommand.Execute
  rw [locateKey_agree, splitTarget_agree]
  cases hk : opts.flags.locateKey w with
  | fatal msg => exact agree_failed w [] _ _
  | ret key =>
    simp only [expandTilde_eq]
    by_cases hp : instanceIDPattern opts.flags.splitTarget.2 = true
    · simp only [hp, Bool.not_true, Bool.false_eq_true, if_false]
      exact connect_agree opts w [] _ _ _
    · simp only [hp, Bool.not_eq_true, Bool.not_false, if_true]
      have hprof : opts.flags.Profile = opts.Profile := rfl
      have hreg : opts.flags.Region = opts.Region := rfl
      rw [hprof, hreg]
      rcases resolve_agree w opts.flags.splitTarget.2 opts.Profile opts.Region with
        ⟨id, h1, h2⟩ | ⟨h1, h2⟩
      · rw [h1, h2]
        exact connect_agree opts w _ _ _ _
      · have hl : ∃ m, (match resolveNameTagToInstanceID w opts.flags.splitTarget.2
            opts.Profile opts.Region with
            | .fatal msg => (⟨[(opts.flags.splitTarget.2, opts.Profile, opts.Region)], [],
                .fatal msg⟩ : Run)
            | .ret (_, some err) => ⟨[(opts.flags.splitTarget.2, opts.Profile, opts.Region)], [],
                .fatal ("Error: " ++ err ++ "\n")⟩
            | .ret (resolved, none) => main.connect opts w
                [(opts.flags.splitTarget.2, opts.Profile, opts.Region)] (ExpandTilde w key)
                opts.flags.splitTarget.1 resolved) =
            ⟨[(opts.flags.splitTarget.2, opts.Profile, opts.Region)], [], .fatal m⟩ := by
          rcases h1 with h1 | ⟨id, e, h1⟩
          · cases hr : resolveNameTagToInstanceID w opts.flags.splitTarget.2
              opts.Profile opts.Region with
            | fatal msg => exact ⟨_, rfl⟩
            | ret r => rw [hr] at h1; cases h1
          · rw [h1]
            exact ⟨_, rfl⟩
        have hs : ∃ m, (match ResolveNameTagToInstanceID w opts.flags.splitTarget.2
            opts.Profile opts.Region with
            | .fatal msg => (⟨[(opts.flags.splitTarget.2, opts.Profile, opts.Region)], [],
                .fatal msg⟩ : Run)
            | .ret (_, some err) => ⟨[(opts.flags.splitTarget.2, opts.Profile, opts.Region)], [],
                .fatal ("Error: " ++ err ++ "\n")⟩
            | .ret (resolved, none) => opts.flags.connect w
                [(opts.flags.splitTarget.2, opts.Profile, opts.Region)] (ExpandTilde w key)
                opts.flags.splitTarget.1 resolved) =
            ⟨[(opts.flags.splitTarget.2, opts.Profile, opts.Region)], [], .fatal m⟩ := by
          rcases h2 with h2 | ⟨id, e, h2⟩
          · cases hr : ResolveNameTagToInstanceID w opts.flags.splitTarget.2
              opts.Profile opts.Region with
            | fatal msg => exact ⟨_, rfl⟩
            | ret r => rw [hr] at h2; cases h2
          · rw [h2]
            exact ⟨_, rfl⟩
        obtain ⟨m1, hm1⟩ := hl
        obtain ⟨m2, hm2⟩ := hs
        rw [hm1, hm2]
        exact agree_failed w _ _ _

theorem variant_connect_agree (c : SSHCommand) (w : World)
    (calls : List (String × String × String)) (k u i : String) :
    Agree w (ssh.Command.connect c w calls k u i) (c.connect w calls k u i) := by
  unfold ssh.Command.connect SSHCommand.connect
  dsimp only
  cases hs : w.Stat (k ++ ".pub") with
  | error e => exact agree_failed w calls _ _
  | ok fi => exact agree_launched w calls _ _ (sshArgs_same_except c k _ _ u i)

theorem variant_agree (c : SSHCommand) (w : World) :
    Agree w (ssh.Command.Execute c w) (c.Execute w) := by
  unfold ssh.Command.Execute SSHCommand.Execute
  cases hk : c.locateKey w with
  | fatal msg => exact agree_failed w [] _ _
  | ret key =>
    dsimp only
    by_cases hp : instanceIDPattern c.splitTarget.2 = true
    · simp only [hp, Bool.not_true, Bool.false_eq_true, if_false]
      exact variant_connect_agree c w [] _ _ _
    · simp only [hp, Bool.not_eq_true, Bool.not_false, if_true]
      cases hr : ResolveNameTagToInstanceID w c.splitTarget.2 c.Profile c.Region with
      | fatal msg => exact agree_failed w _ _ _
      | ret r =>
        obtain ⟨resolved, err⟩ := r
        cases err with
        | some e => exact agree_failed w _ _ _
        | none => exact variant_connect_agree c w _ _ _ _

theorem resolvedID_agree (w : World) (name profile region : String) :
    resolvedID (resolveNameTagToInstanceID w name profile region) =
      resolvedID (ResolveNameTagToInstanceID w name profile region) := by
  rcases resolve_agree w name profile region with ⟨id, h1, h2⟩ | ⟨h1, h2⟩
  · rw [h1, h2]
  · have hl : resolvedID (resolveNameTagToInstanceID w name profile region) = none := by
      rcases h1 with h1 | ⟨id, e, h1⟩
      · cases hr : resolveNameTagToInstanceID w name profile region with
        | fatal msg => rfl
        | ret r => rw [hr] at h1; cases h1
      · rw [h1]
        rfl
    have hs : resolvedID (ResolveNameTagToInstanceID w name profile region) = none := by
      rcases h2 with h2 | ⟨id, e, h2⟩
      · cases hr : ResolveNameTagToInstanceID w name profile region with
        | fatal msg => rfl
        | ret r => rw [hr] at h2; cases h2
      · rw [h2]
        rfl
    rw [hl, hs]

theorem agree_same_child (w : World) (l s : Run) (h : Agree w l s)
    (hchild : ∀ a ∈ l.launched, ∀ b ∈ s.launched, (w.Run a).isSome = (w.Run b).isSome) :
    l.result.failed = s.result.failed := by
  obtain ⟨-, hall, hnone, hl, hs⟩ := h
  generalize l.launched = ll at hall hnone hl hchild
  generalize s.launched = ss at hall hs hchild
  cases hall with
  | nil =>
    obtain ⟨h1, h2⟩ := hnone rfl
    rw [h1, h2]
  | cons hab hrest =>
    rw [hl _ (List.mem_cons_self _ _), hs _ (List.mem_cons_self _ _)]
    exact hchild _ (List.mem_cons_self _ _) _ (List.mem_cons_self _ _)

/-- C11 (amended): for the same options, positional argument, file system and provider the
legacy command (`main` of main.go) and the ssh subcommand (`SSHCommand.Execute`) choose the same
key path (same key lookup, same tilde expansion), the same user and instance part, and the same
resolved instance ID; they call the resolver with the same arguments and start an ssh client in
the same cases; when no ssh client is started both fail; once one is started, each fails exactly
when its own ssh client fails, so the two fail in the same cases whenever the two ssh clients
fail alike; and the argument lists they hand to the ssh client have the same length and the
same argument at every position other than the ProxyCommand option value.  The ssh subcommand
of package ssh (`Command.Execute` of internal/cli/ssh) agrees with `SSHCommand.Execute` in the
same way. -/
theorem c11_legacy_and_subcommand_agree (opts : Options) (w : World) :
    main.locateKey opts w = opts.flags.locateKey w ∧
    (∀ path : String, expandTilde w path = ExpandTilde w path) ∧
    main.splitTarget opts = opts.flags.splitTarget ∧
    (∀ name : String,
      resolvedID (resolveNameTagToInstanceID w name opts.Profile opts.Region) =
        resolvedID (ResolveNameTagToInstanceID w name opts.Profile opts.Region)) ∧
    Agree w (main.body opts w) (opts.flags.Execute w) ∧
    ((∀ a ∈ (main.body opts w).launched, ∀ b ∈ (opts.flags.Execute w).launched,
        (w.Run a).isSome = (w.Run b).isSome) →
      (main.body opts w).result.failed = (opts.flags.Execute w).result.failed) ∧
    Agree w (ssh.Command.Execute opts.flags w) (opts.flags.Execute w) :=
  ⟨locateKey_agree opts w, expandTilde_eq w, splitTarget_agree opts,
    fun name => resolvedID_agree w name opts.Profile opts.Region,
    body_agree opts w, agree_same_child w _ _ (body_agree opts w), variant_agree opts.flags w⟩

theorem c11_witness :
    (main.body ⟨"prod", "us-east-1", "", 2222, [true], false, ⟨"admin@web"⟩⟩
      (sampleWorld [("/home/alice/.ssh/id_rsa", .regular),
        ("/home/alice/.ssh/id_rsa.pub", .regular)]
        ⟨[⟨[⟨some "i-0aaaaaaaaaaaaaaa1"⟩]⟩]⟩)).result.failed =
    (SSHCommand.Execute ⟨"prod", "us-east-1", "", 2222, [true], ⟨"admin@web"⟩⟩
      (sampleWorld [("/home/alice/.ssh/id_rsa", .regular),
        ("/home/alice/.ssh/id_rsa.pub", .regular)]
        ⟨[⟨[⟨some "i-0aaaaaaaaaaaaaaa1"⟩]⟩]⟩)).result.failed :=
  (c11_legacy_and_subcommand_agree
    ⟨"prod", "us-east-1", "", 2222, [true], false, ⟨"admin@web"⟩⟩
    (sampleWorld [("/home/alice/.ssh/id_rsa", .regular),
      ("/home/alice/.ssh/id_rsa.pub", .regular)]
      ⟨[⟨[⟨some "i-0aaaaaaaaaaaaaaa1"⟩]⟩]⟩)).2.2.2.2.2.1
    (fun _ _ _ _ => rfl)

set_option maxRecDepth 100000 in
/-- C11, as stated, fails: the two variants hand their ssh clients different proxy commands, so
the clients need not end alike.  With the same flags, positional argument, files and provider,
on a host whose ssh client fails only when its proxy command runs the ssh-proxy subcommand, the
legacy command starts its ssh client and returns, while the subcommand starts its ssh client
and fails. -/
theorem c11_counterexample :
    Options.flags ⟨"", "", "", 22, [], false, ⟨"i-0123456789abcdef0"⟩⟩ =
      ⟨"", "", "", 22, [], ⟨"i-0123456789abcdef0"⟩⟩ ∧
    main.body ⟨"", "", "", 22, [], false, ⟨"i-0123456789abcdef0"⟩⟩
      (proxylessWorld [("/home/alice/.ssh/id_rsa", .regular),
        ("/home/alice/.ssh/id_rsa.pub", .regular)] ⟨[]⟩) =
      ⟨[], [["-i", "/home/alice/.ssh/id_rsa", "-o",
          "ProxyCommand=sh -c 'aws ec2-instance-connect send-ssh-public-key " ++
            "--instance-id %h --instance-os-user %r " ++
            "--ssh-public-key file:///home/alice/.ssh/id_rsa.pub" ++
            " > /dev/null && aws ssm start-session --target %h " ++
            "--document-name AWS-StartSSHSession --parameters portNumber=%p'",
          "-p", "22", "ec2-user@i-0123456789abcdef0"]],
        .ret none⟩ ∧
    SSHCommand.Execute ⟨"", "", "", 22, [], ⟨"i-0123456789abcdef0"⟩⟩
      (proxylessWorld [("/home/alice/.ssh/id_rsa", .regular),
        ("/home/alice/.ssh/id_rsa.pub", .regular)] ⟨[]⟩) =
      ⟨[], [["-i", "/home/alice/.ssh/id_rsa", "-o",
          "ProxyCommand=sh -c 'aws-ec2-ssh ssh-proxy --ssh-key /home/alice/.ssh/id_rsa.pub " ++
            "--username ec2-user --instance-id i-0123456789abcdef0'",
          "-p", "22", "ec2-user@i-0123456789abcdef0"]],
        .fatal "ssh failed: exit status 255"⟩ ∧
    (main.body ⟨"", "", "", 22, [], false, ⟨"i-0123456789abcdef0"⟩⟩
      (proxylessWorld [("/home/alice/.ssh/id_rsa", .regular),
        ("/home/alice/.ssh/id_rsa.pub", .regular)] ⟨[]⟩)).result.failed ≠
    (SSHCommand.Execute ⟨"", "", "", 22, [], ⟨"i-0123456789abcdef0"⟩⟩
      (proxylessWorld [("/home/alice/.ssh/id_rsa", .regular),
        ("/home/alice/.ssh/id_rsa.pub", .regular)] ⟨[]⟩)).result.failed :=
  ⟨rfl, by decide, by decide, by decide⟩

/-! ## Exit status -/

theorem connect_result (c : SSHCommand) (w : World) (calls : List (String × String × String))
    (k u i : String) :
    (∃ m, (c.connect w calls k u i).result = .fatal m) ∨
      (c.connect w calls k u i).result = .ret none := by
  unfold SSHCommand.connect
  dsimp only
  cases w.Stat (k ++ ".pub") with
  | error e => exact Or.inl ⟨_, rfl⟩
  | ok fi =>
    dsimp only
    cases w.Run (c.sshArgs k (c.proxyCmd (k ++ ".pub") u i) u i) with
    | some err => exact Or.inl ⟨_, rfl⟩
    | none => exact Or.inr rfl

theorem execute_result (c : SSHCommand) (w : World) :
    (∃ m, (c.Execute w).result = .fatal m) ∨ (c.Execute w).result = .ret none := by
  unfold SSHCommand.Execute
  cases c.locateKey w with
  | fatal msg => exact Or.inl ⟨_, rfl⟩
  | ret key =>
    dsimp only
    split
    · cases ResolveNameTagToInstanceID w c.splitTarget.2 c.Profile c.Region with
      | fatal msg => exact Or.inl ⟨_, rfl⟩
      | ret r =>
        obtain ⟨resolved, err⟩ := r
        cases err with
        | some e => exact Or.inl ⟨_, rfl⟩
        | none => exact connect_result c w _ _ _ _
    · exact connect_result c w _ _ _ _

theorem variant_connect_result (c : SSHCommand) (w : World)
    (calls : List (String × String × String)) (k u i : String) :
    (∃ m, (ssh.Command.connect c w calls k u i).result = .fatal m) ∨
      (ssh.Command.connect c w calls k u i).result = .ret none := by
  unfold ssh.Command.connect
  dsimp only
  cases w.Stat (k ++ ".pub") with
  | error e => exact Or.inl ⟨_, rfl⟩
  | ok fi =>
    dsimp only
    cases w.Run (c.sshArgs k (ssh.Command.proxyCmd c (k ++ ".pub") u i) u i) with
    | some err => exact Or.inl ⟨_, rfl⟩
    | none => exact Or.inr rfl

theorem variant_execute_result (c : SSHCommand) (w : World) :
    (∃ m, (ssh.Command.Execute c w).result = .fatal m) ∨
      (ssh.Command.Execute c w).result = .ret none := by
  unfold ssh.Command.Execute
  cases c.locateKey w with
  | fatal msg => exact Or.inl ⟨_, rfl⟩
  | ret key =>
    dsimp only
    split
    · cases ResolveNameTagToInstanceID w c.splitTarget.2 c.Profile c.Region with
      | fatal msg => exact Or.inl ⟨_, rfl⟩
      | ret r =>
        obtain ⟨resolved, err⟩ := r
        cases err with
        | some e => exact Or.inl ⟨_, rfl⟩
        | none => exact variant_connect_result c w _ _ _ _
    · exact variant_connect_result c w _ _ _ _

theorem proxy_execute_result (c : SSHProxyCommand) (pw : ProxyWorld) :
    (∃ m, (ssh_proxy.Command.Execute c pw).result = .fatal m) ∨
      (ssh_proxy.Command.Execute c pw).result = .ret none := by
  unfold ssh_proxy.Command.Execute
  cases LoadAwsDefaultConfig pw.toWorld c.Profile c.Region with
  | fatal msg => exact Or.inl ⟨_, rfl⟩
  | ret u =>
    dsimp only
    rcases hr : ReadPublicKey pw c.PublicKey with ⟨publicKey, err⟩
    cases err with
    | some e => exact Or.inl ⟨_, rfl⟩
    | none =>
      dsimp only
      cases pw.SendSSHPublicKey c.Profile c.Region c.InstanceId c.Username publicKey with
      | some e => exact Or.inl ⟨_, rfl⟩
      | none =>
        dsimp only
        cases pw.SSHSession c.Profile c.Region c.InstanceId c.Port with
        | some e => exact Or.inl ⟨_, rfl⟩
        | none => exact Or.inr rfl

theorem handler_exit_status (r : Proc (Option String))
    (h : (∃ m, r = .fatal m) ∨ r = .ret none) :
    ((cli.CommandHandler (some ⟨r⟩)).exitStatus = 0 ∨
      (cli.CommandHandler (some ⟨r⟩)).exitStatus = 1) ∧
    ((cli.CommandHandler (some ⟨r⟩)).exitStatus = 0 ↔ r.failed = false) ∧
    (root.CommandHandler (some ⟨r⟩)).exitStatus = (cli.CommandHandler (some ⟨r⟩)).exitStatus := by
  rcases h with ⟨m, rfl⟩ | rfl
  · exact ⟨Or.inr rfl, by simp [cli.CommandHandler, Handled.exitStatus, Proc.failed], rfl⟩
  · exact ⟨Or.inl rfl, by simp [cli.CommandHandler, Handled.exitStatus, Proc.failed], rfl⟩

/-- The exit status of the legacy command is 0 or 1: 0 exactly on a help request or when the
command ran without a fatal error. -/
theorem main_exit_status (w : World) (parsed : Parsed Options) :
    (main w parsed = 0 ∨ main w parsed = 1) ∧
    (main w parsed = 0 ↔
      parsed = .help ∨ ∃ opts, parsed = .ok opts ∧ (main.body opts w).result.failed = false) := by
  cases parsed with
  | help => exact ⟨Or.inl rfl, by simp [main]⟩
  | failure msg => exact ⟨Or.inr rfl, by simp [main]⟩
  | ok opts =>
    unfold main
    dsimp only
    cases hr : (main.body opts w).result with
    | fatal m => exact ⟨Or.inr rfl, by simp [Proc.failed, hr]⟩
    | ret e => exact ⟨Or.inl rfl, by simp [Proc.failed, hr]⟩

/-- The exit status of the process of internal/cli is 0 or 1 as long as the ssh-proxy
subcommand is not chosen: 0 exactly on a help request or when the ssh subcommand ran without a
fatal error. -/
theorem cli_exit_status (w : World) (parsed : Parsed cli.Command)
    (hssh : ∀ pc, parsed ≠ .ok (.SSHProxy pc)) :
    (cli.Execute w parsed = 0 ∨ cli.Execute w parsed = 1) ∧
    (cli.Execute w parsed = 0 ↔
      parsed = .help ∨ ∃ c, parsed = .ok (.SSH c) ∧ (c.Execute w).result.failed = false) := by
  cases parsed with
  | help => exact ⟨Or.inl rfl, by simp [cli.Execute]⟩
  | failure msg => exact ⟨Or.inr rfl, by simp [cli.Execute]⟩
  | ok command =>
    cases command with
    | SSHProxy pc => exact absurd rfl (hssh pc)
    | SSH c =>
      obtain ⟨h1, h2, -⟩ := handler_exit_status (c.Execute w).result (execute_result c w)
      refine ⟨h1, ?_⟩
      simp only [cli.Execute, cli.Command.asCommander]
      rw [h2]
      simp

/-- The exit status of the process of internal/cli/root is always 0 or 1. -/
theorem root_exit_status (pw : ProxyWorld) (parsed : Parsed root.Command) :
    root.Execute pw parsed = 0 ∨ root.Execute pw parsed = 1 := by
  cases parsed with
  | help => exact Or.inl rfl
  | failure msg => exact Or.inr rfl
  | ok command =>
    cases command with
    | SSH c =>
      obtain ⟨h1, -, h3⟩ := handler_exit_status _ (variant_execute_result c pw.toWorld)
      simp only [root.Execute, root.Command.asCommander]
      rw [h3]
      exact h1
    | SSHProxy pc =>
      obtain ⟨h1, -, h3⟩ := handler_exit_status _ (proxy_execute_result pc pw)
      simp only [root.Execute, root.Command.asCommander]
      rw [h3]
      exact h1

/-- A failed ssh child ends the ssh subcommand with exit status 1, whatever error (and with it
whatever exit status of the child) `Run` reports. -/
theorem child_failure_exit_status (c : SSHCommand) (w : World) (a : List String) (err : String)
    (ha : a ∈ (c.Execute w).launched) (hrun : w.Run a = some err) :
    cli.Execute w (.ok (.SSH c)) = 1 := by
  have hagree := body_agree ⟨c.Profile, c.Region, c.PublicKey, c.Port, c.Verbose, false, c.Args⟩ w
  have hfl : (⟨c.Profile, c.Region, c.PublicKey, c.Port, c.Verbose, false, c.Args⟩ :
      Options).flags = c := rfl
  rw [hfl] at hagree
  have hfailed : (c.Execute w).result.failed = true := by
    rw [hagree.2.2.2.2 a ha, hrun]
    rfl
  obtain ⟨h1, h2, -⟩ := handler_exit_status (c.Execute w).result (execute_result c w)
  simp only [cli.Execute, cli.Command.asCommander]
  rcases h1 with h0 | h1
  · rw [h2, hfailed] at h0
    cases h0
  · exact h1

/-- C12 (the code at the failing input): when the command line chooses the ssh-proxy
subcommand, the process of internal/cli ends with exit status 2, neither 0 nor 1, in every world
and for all flags of the subcommand: `*SSHProxyCommand` is not a `flags.Commander`, the command
handler is called with a nil command and panics.  The process of internal/cli/root, whose
ssh-proxy `Execute` returns an error, ends with 0 or 1 on the same command line. -/
theorem c12_ssh_proxy_of_package_cli_exits_with_2 (pw : ProxyWorld) (pc : SSHProxyCommand) :
    cli.Execute pw.toWorld (.ok (.SSHProxy pc)) = 2 ∧
    (root.Execute pw (.ok (.SSHProxy pc)) = 0 ∨ root.Execute pw (.ok (.SSHProxy pc)) = 1) :=
  ⟨rfl, root_exit_status pw _⟩

/-! ## The port -/

theorem sshArgs_port (c : SSHCommand) (p : Int) (k proxy u i : String) :
    SameExceptPort c.Port p (c.sshArgs k proxy u i)
      (SSHCommand.sshArgs { c with Port := p } k proxy u i) := by
  unfold SSHCommand.sshArgs
  by_cases hv : c.Verbose.length > 0
  · simp only [hv, if_true]
    refine ⟨by simp, ?_, by simp, by simp, by simp⟩
    intro n hn
    rcases n with _ | _ | _ | _ | _ | _ | n
    · simp
    · simp
    · simp
    · simp
    · simp
    · exact absurd rfl hn
    · simp
  · simp only [hv, if_false]
    refine ⟨by simp, ?_, by simp, by simp, by simp⟩
    intro n hn
    rcases n with _ | _ | _ | _ | _ | _ | n
    · simp
    · simp
    · simp
    · simp
    · simp
    · exact absurd rfl hn
    · simp

theorem connect_port (c : SSHCommand) (p : Int) (w : World)
    (calls : List (String × String × String)) (k u i : String) :
    (c.connect w calls k u i).resolved =
      (SSHCommand.connect { c with Port := p } w calls k u i).resolved ∧
    List.Forall₂ (SameExceptPort c.Port p) (c.connect w calls k u i).launched
      (SSHCommand.connect { c with Port := p } w calls k u i).launched := by
  unfold SSHCommand.connect
  dsimp only
  cases hs : w.Stat (k ++ ".pub") with
  | error e => exact ⟨rfl, List.Forall₂.nil⟩
  | ok fi =>
    dsimp only
    have hargs := sshArgs_port c p k (c.proxyCmd (k ++ ".pub") u i) u i
    have hproxy : SSHCommand.proxyCmd { c with Port := p } (k ++ ".pub") u i =
        c.proxyCmd (k ++ ".pub") u i := rfl
    rw [hproxy]
    cases w.Run (c.sshArgs k (c.proxyCmd (k ++ ".pub") u i) u i) <;>
      cases w.Run (SSHCommand.sshArgs { c with Port := p } k
        (c.proxyCmd (k ++ ".pub") u i) u i) <;>
      exact ⟨rfl, List.Forall₂.cons hargs List.Forall₂.nil⟩

theorem execute_port (c : SSHCommand) (p : Int) (w : World) :
    (c.Execute w).resolved = (SSHCommand.Execute { c with Port := p } w).resolved ∧
    List.Forall₂ (SameExceptPort c.Port p) (c.Execute w).launched
      (SSHCommand.Execute { c with Port := p } w).launched := by
  unfold SSHCommand.Execute
  have hkey : SSHCommand.locateKey { c with Port := p } w = c.locateKey w := rfl
  have hsplit : SSHCommand.splitTarget { c with Port := p } = c.splitTarget := rfl
  rw [hkey, hsplit]
  cases c.locateKey w with
  | fatal msg => exact ⟨rfl, List.Forall₂.nil⟩
  | ret key =>
    dsimp only
    split
    · cases ResolveNameTagToInstanceID w c.splitTarget.2 c.Profile c.Region with
      | fatal msg => exact ⟨rfl, List.Forall₂.nil⟩
      | ret r =>
        obtain ⟨resolved, err⟩ := r
        cases err with
        | some e => exact ⟨rfl, List.Forall₂.nil⟩
        | none => exact connect_port c p w _ _ _ _
    · exact connect_port c p w _ _ _ _

theorem proxy_sessions (pc : SSHProxyCommand) (pw : ProxyWorld) :
    ∀ s ∈ (pc.Execute pw).sessions, s = (pc.InstanceId, pc.Port) := by
  unfold SSHProxyCommand.Execute
  cases LoadAwsDefaultConfig pw.toWorld pc.Profile pc.Region with
  | fatal msg => intro s hs; cases hs
  | ret u =>
    dsimp only
    rcases hr : ReadPublicKey pw pc.PublicKey with ⟨publicKey, err⟩
    cases err with
    | some e => intro s hs; cases hs
    | none =>
      dsimp only
      cases pw.SendSSHPublicKey pc.Profile pc.Region pc.InstanceId pc.Username publicKey with
      | some e => intro s hs; cases hs
      | none =>
        dsimp only
        cases pw.SSHSession pc.Profile pc.Region pc.InstanceId pc.Port <;>
          intro s hs <;> exact List.mem_singleton.mp hs

/-- C13 (amended): the proxy command of the ssh subcommand does not depend on the port: the
command with another port builds the identical proxy command, makes the same resolver calls and
starts ssh clients in the same cases with argument lists that differ only in the argument after
"-p", which is the decimal port of each.  The builder adds no port option: the texts "--port"
and "-P" occur in the proxy command only if they occur in the key path, the user, the instance
ID, the profile or the region.  `SSHProxyCommand.Execute` opens its tunnel to the port of its
own flags, and that port is 22 when the flags are given without a port. -/
theorem c13_proxy_command_independent_of_port (c : SSHCommand) (p : Int) :
    (∀ k u i : String, SSHCommand.proxyCmd { c with Port := p } k u i = c.proxyCmd k u i) ∧
    (∀ w : World,
      (c.Execute w).resolved = (SSHCommand.Execute { c with Port := p } w).resolved ∧
      List.Forall₂ (SameExceptPort c.Port p) (c.Execute w).launched
        (SSHCommand.Execute { c with Port := p } w).launched) ∧
    (∀ k u i : String,
      (∀ s ∈ [k, u, i, c.Profile, c.Region], ¬ "--port".data <:+: s.data) →
      ¬ "--port".data <:+: (c.proxyCmd k u i).data) ∧
    (∀ k u i : String,
      (∀ s ∈ [k, u, i, c.Profile, c.Region], ¬ "-P".data <:+: s.data) →
      ¬ "-P".data <:+: (c.proxyCmd k u i).data) ∧
    (∀ (pw : ProxyWorld) (pc : SSHProxyCommand),
      ∀ s ∈ (pc.Execute pw).sessions, s = (pc.InstanceId, pc.Port)) ∧
    (∀ profile region username instanceId publicKey : String,
      ({ Profile := profile, Region := region, Username := username,
         InstanceId := instanceId, PublicKey := publicKey } : SSHProxyCommand).Port = 22) := by
  refine ⟨fun _ _ _ => rfl, execute_port c p, ?_, ?_, fun pw pc => proxy_sessions pc pw,
    fun _ _ _ _ _ => rfl⟩
  · intro k u i hclean
    exact proxyCmd_no_occurrence c k u i _ (by decide) (by decide) (by decide) (by decide)
      (by decide) (by decide)
      (hclean _ (by simp)) (hclean _ (by simp)) (hclean _ (by simp))
      (prepareArg_no_occurrence _ (by decide) _ _ (by decide) (by decide) (hclean _ (by simp)))
      (prepareArg_no_occurrence _ (by decide) _ _ (by decide) (by decide) (hclean _ (by simp)))
  · intro k u i hclean
    exact proxyCmd_no_occurrence c k u i _ (by decide) (by decide) (by decide) (by decide)
      (by decide) (by decide)
      (hclean _ (by simp)) (hclean _ (by simp)) (hclean _ (by simp))
      (prepareArg_no_occurrence _ (by decide) _ _ (by decide) (by decide) (hclean _ (by simp)))
      (prepareArg_no_occurrence _ (by decide) _ _ (by decide) (by decide) (hclean _ (by simp)))

theorem c13_witness :
    SSHCommand.proxyCmd ⟨"prod", "us-east-1", "", 2222, [], ⟨"i-0123456789abcdef0"⟩⟩
      "/home/alice/.ssh/id_rsa.pub" "ec2-user" "i-0123456789abcdef0" =
    SSHCommand.proxyCmd ⟨"prod", "us-east-1", "", 22, [], ⟨"i-0123456789abcdef0"⟩⟩
      "/home/alice/.ssh/id_rsa.pub" "ec2-user" "i-0123456789abcdef0" ∧
    ¬ "--port".data <:+:
      (SSHCommand.proxyCmd ⟨"prod", "us-east-1", "", 22, [], ⟨"i-0123456789abcdef0"⟩⟩
        "/home/alice/.ssh/id_rsa.pub" "ec2-user" "i-0123456789abcdef0").data :=
  ⟨(c13_proxy_command_independent_of_port
      ⟨"prod", "us-east-1", "", 22, [], ⟨"i-0123456789abcdef0"⟩⟩ 2222).1
      "/home/alice/.ssh/id_rsa.pub" "ec2-user" "i-0123456789abcdef0",
   (c13_proxy_command_independent_of_port
      ⟨"prod", "us-east-1", "", 22, [], ⟨"i-0123456789abcdef0"⟩⟩ 2222).2.2.1
      "/home/alice/.ssh/id_rsa.pub" "ec2-user" "i-0123456789abcdef0" (by decide)⟩

set_option maxRecDepth 100000 in
/-- C13, as stated, fails: for the positional argument "bob --port 2222@i-0123456789abcdef0"
the user is "bob --port 2222", the proxy command handed to the ssh client carries the port
option "--port 2222" while the client itself is given "-p 22"; and `SSHProxyCommand.Execute`
with the flags that this proxy command spells out opens its tunnel to port 2222. -/
theorem c13_counterexample :
    (SSHCommand.Execute ⟨"", "", "", 22, [], ⟨"bob --port 2222@i-0123456789abcdef0"⟩⟩
      (sampleWorld [("/home/alice/.ssh/id_rsa", .regular),
        ("/home/alice/.ssh/id_rsa.pub", .regular)] ⟨[]⟩)).launched =
      [["-i", "/home/alice/.ssh/id_rsa", "-o",
        "ProxyCommand=sh -c 'aws-ec2-ssh ssh-proxy --ssh-key /home/alice/.ssh/id_rsa.pub " ++
          "--username bob --port 2222 --instance-id i-0123456789abcdef0'",
        "-p", "22", "bob --port 2222@i-0123456789abcdef0"]] ∧
    "--port 2222".data <:+:
      (SSHCommand.proxyCmd ⟨"", "", "", 22, [], ⟨"bob --port 2222@i-0123456789abcdef0"⟩⟩
        "/home/alice/.ssh/id_rsa.pub" "bob --port 2222" "i-0123456789abcdef0").data ∧
    (SSHProxyCommand.Execute
      ⟨"", "", "bob", "i-0123456789abcdef0", 2222, "/home/alice/.ssh/id_rsa.pub"⟩
      (sampleProxyWorld [])).sessions = [("i-0123456789abcdef0", 2222)] :=
  ⟨by decide, by decide, by decide⟩

end AwsEc2Ssh
